import Mathlib

/-!
Verification development for the `StandardAtmos` class of `dcotssUtils/atmos.py`.

The class implements the International Standard Atmosphere: a forward map from
altitude to `(pressure, temperature, potential temperature, density)` built from
four constant-lapse-rate layers, and two inverse maps (pressure → altitude and
potential temperature → altitude) implemented by bisection over the tabulated
layer boundaries.  All Python floats are modelled as real numbers; Python
exceptions are modelled with `Except`.

Layout: definitions shallowly embedding the source first, then the supporting
analysis (exact layer formulas, derivatives, monotonicity, quantitative mean
value bounds, certified numerical bounds on the transcendental constants), and
finally one theorem per specification claim.
-/

open Real Set

namespace StandardAtmos

/-- Gravitational acceleration, class attribute `g = 9.80665`. -/
def g : ℝ := 9.80665

/-- Gas constant of dry air, class attribute `R = 287.00`. -/
def R : ℝ := 287.00

/-- Specific heat at constant pressure, class attribute `Cp = 1005.7`. -/
def Cp : ℝ := 1005.7

noncomputable section

/-- Potential temperature from air temperature and pressure (method `t2theta`). -/
def t2theta (temp pres : ℝ) : ℝ := temp * (1.0e5 / pres) ^ (R / Cp)

/-- Temperature from potential temperature and pressure (method `theta2t`). -/
def theta2t (temp pres : ℝ) : ℝ := temp / (1.0e5 / pres) ^ (R / Cp)

/-- Air density from temperature and pressure (method `density`). -/
def density (temp pres : ℝ) : ℝ := pres / (R * temp)

/-- Pressure and temperature at altitude `h1`, from the base state `(p0, t0)` at
altitude `h0` of a layer with lapse rate `a` (method `cal`).  The source inlines
`t1 = t0 + a * (h1 - h0)`. -/
def cal (p0 t0 a h0 h1 : ℝ) : ℝ × ℝ :=
  if a ≠ 0 then
    (p0 * ((t0 + a * (h1 - h0)) / t0) ^ (-g / a / R), t0 + a * (h1 - h0))
  else
    (p0 * exp (-g / R / t0 * (h1 - h0)), t0)

/-- Ground pressure, instance attribute `p0 = 101325` Pa. -/
def p0 : ℝ := 101325

/-- Ground temperature, instance attribute `t0 = 288.15` K. -/
def t0 : ℝ := 288.15

/-- Ground potential temperature, `theta0 = t2theta(t0, p0)`. -/
def theta0 : ℝ := t2theta t0 p0

/-- Running base state after layer 0, i.e. `cal(p0, t0, a[0], 0, h[0])`; this is the
state the `fromMeters` loop carries past `11000` m. -/
def base1 : ℝ × ℝ := cal p0 t0 (-0.0065) 0 11000

/-- Running base state after layer 1 (`20000` m). -/
def base2 : ℝ × ℝ := cal base1.1 base1.2 0 11000 20000

/-- Running base state after layer 2 (`32000` m). -/
def base3 : ℝ × ℝ := cal base2.1 base2.2 0.001 20000 32000

/-- Pressure/temperature pair that the layer walk of `fromMeters` computes for an
altitude `alt ∈ [0, 47000]`: the first layer whose ceiling is `≥ alt` is applied
from its running base state, exactly as the `for i in range(4)` loop does. -/
def calAt (alt : ℝ) : ℝ × ℝ :=
  if alt ≤ 11000 then cal p0 t0 (-0.0065) 0 alt
  else if alt ≤ 20000 then cal base1.1 base1.2 0 11000 alt
  else if alt ≤ 32000 then cal base2.1 base2.2 0.001 20000 alt
  else cal base3.1 base3.2 0.0028 32000 alt

/-- Pressure at altitude `alt` computed by the layer walk. -/
def presAt (alt : ℝ) : ℝ := (calAt alt).1

/-- Temperature at altitude `alt` computed by the layer walk. -/
def tempAt (alt : ℝ) : ℝ := (calAt alt).2

/-- Potential temperature at altitude `alt`, `t2theta(temp, pres)`. -/
def thetaAt (alt : ℝ) : ℝ := t2theta (tempAt alt) (presAt alt)

/-- Density at altitude `alt`, `density(temp, pres)`. -/
def densAt (alt : ℝ) : ℝ := density (tempAt alt) (presAt alt)

/-- Exceptions raised by the model.  `altRange` is the constant-message range error
of `fromMeters` (its message `"altitude must be in [0, 47000] m"` interpolates no
values); `paRange`/`thetaRange` carry the two bound values interpolated into the
f-string messages of `fromPa`/`fromTheta`; `unboundLocal` models Python's
`UnboundLocalError`, raised when the bracket scan falls through all four layers
without assigning `h0, h1`. -/
inductive AtmosError where
  | altRange : AtmosError
  | paRange : ℝ → ℝ → AtmosError
  | thetaRange : ℝ → ℝ → AtmosError
  | unboundLocal : AtmosError

/-- Result tuple type of the conversions. -/
abbrev Result : Type := ℝ × ℝ × ℝ × ℝ

/-- Method `fromMeters`: range-check the altitude, then walk the layers and return
`(pres, temp, theta, density)`. -/
def fromMeters (alt : ℝ) : Except AtmosError Result :=
  if alt < 0 ∨ alt > 47000 then .error .altRange
  else
    .ok ((calAt alt).1, (calAt alt).2, t2theta (calAt alt).2 (calAt alt).1,
      density (calAt alt).2 (calAt alt).1)

/-- Method `fromKilometers`: unit wrapper over `fromMeters`. -/
def fromKilometers (alt : ℝ) : Except AtmosError Result := fromMeters (alt * 1.0e3)

/-- Tabulated layer-ceiling pressure `p[0]`, stored by the constructor from
`fromMeters(h[0])`. -/
def pT0 : ℝ := presAt 11000

/-- Tabulated layer-ceiling pressure `p[1]`. -/
def pT1 : ℝ := presAt 20000

/-- Tabulated layer-ceiling pressure `p[2]`. -/
def pT2 : ℝ := presAt 32000

/-- Tabulated layer-ceiling pressure `p[3]` (= `p[-1]`, the top-of-model pressure). -/
def pT3 : ℝ := presAt 47000

/-- Tabulated layer-ceiling potential temperature `theta[0]`. -/
def thT0 : ℝ := thetaAt 11000

/-- Tabulated layer-ceiling potential temperature `theta[1]`. -/
def thT1 : ℝ := thetaAt 20000

/-- Tabulated layer-ceiling potential temperature `theta[2]`. -/
def thT2 : ℝ := thetaAt 32000

/-- Tabulated layer-ceiling potential temperature `theta[3]` (= `theta[-1]`). -/
def thT3 : ℝ := thetaAt 47000

/-- Bracket scan of `fromPa`: the first layer whose ceiling pressure is below the
target gives the altitude bounds (`h0` is the previous ceiling, the ground for
layer 0).  `none` models the loop falling through with `h0, h1` never assigned. -/
def paBracket (pres : ℝ) : Option (ℝ × ℝ) :=
  if pres > pT0 then some (0, 11000)
  else if pres > pT1 then some (11000, 20000)
  else if pres > pT2 then some (20000, 32000)
  else if pres > pT3 then some (32000, 47000)
  else none

/-- One bracket update of the `fromPa` bisection: `if pres > p: h1 = mid  else: h0 = mid`. -/
def paStep (pres p h0 h1 mid : ℝ) : ℝ × ℝ :=
  if pres > p then (h0, mid) else (mid, h1)

/-- The `while` loop of `fromPa`.  The `ℕ` argument is the remaining iteration
budget (the Python counter `i`, 50 at entry); the loop state is the bracket
`[h0, h1]`, the current midpoint and the tuple `r` returned by `fromMeters(mid)`.
On exit the loop yields `(mid, t, theta, d)` together with the final counter. -/
def paLoop (pres : ℝ) : ℕ → ℝ → ℝ → ℝ → Result → Except AtmosError (Result × ℕ)
  | 0, _, _, mid, r => .ok ((mid, r.2.1, r.2.2.1, r.2.2.2), 0)
  | i + 1, h0, h1, mid, r =>
    if 0.05 < |r.1 - pres| then
      (fromMeters (((paStep pres r.1 h0 h1 mid).1 + (paStep pres r.1 h0 h1 mid).2) / 2)).bind
        fun r' =>
          paLoop pres i (paStep pres r.1 h0 h1 mid).1 (paStep pres r.1 h0 h1 mid).2
            (((paStep pres r.1 h0 h1 mid).1 + (paStep pres r.1 h0 h1 mid).2) / 2) r'
    else .ok ((mid, r.2.1, r.2.2.1, r.2.2.2), i + 1)

/-- Method `fromPa`: range check (note the inverted comparison — pressure falls
with altitude), bracket scan, then 50-capped bisection on pressure. -/
def fromPa (pres : ℝ) : Except AtmosError Result :=
  if pres > p0 ∨ pres < pT3 then .error (.paRange p0 pT3)
  else
    match paBracket pres with
    | none => .error .unboundLocal
    | some b =>
      (fromMeters ((b.1 + b.2) / 2)).bind fun r =>
        (paLoop pres 50 b.1 b.2 ((b.1 + b.2) / 2) r).map Prod.fst

/-- Method `fromhPa`: unit wrapper over `fromPa`. -/
def fromhPa (pres : ℝ) : Except AtmosError Result := fromPa (pres * 1.0e2)

/-- Bracket scan of `fromTheta` (potential temperature rises with altitude, so the
comparison is mirrored). -/
def thetaBracket (thetaIn : ℝ) : Option (ℝ × ℝ) :=
  if thetaIn < thT0 then some (0, 11000)
  else if thetaIn < thT1 then some (11000, 20000)
  else if thetaIn < thT2 then some (20000, 32000)
  else if thetaIn < thT3 then some (32000, 47000)
  else none

/-- One bracket update of the `fromTheta` bisection:
`if thetaIn < theta: h1 = mid  else: h0 = mid`. -/
def thetaStep (thetaIn th h0 h1 mid : ℝ) : ℝ × ℝ :=
  if thetaIn < th then (h0, mid) else (mid, h1)

/-- The `while` loop of `fromTheta`; same structure as `paLoop` but the guard and
branch compare potential temperatures, and the exit value is `(p, mid, t, d)`. -/
def thetaLoop (thetaIn : ℝ) : ℕ → ℝ → ℝ → ℝ → Result → Except AtmosError (Result × ℕ)
  | 0, _, _, mid, r => .ok ((r.1, mid, r.2.1, r.2.2.2), 0)
  | i + 1, h0, h1, mid, r =>
    if 0.05 < |r.2.2.1 - thetaIn| then
      (fromMeters
          (((thetaStep thetaIn r.2.2.1 h0 h1 mid).1 +
              (thetaStep thetaIn r.2.2.1 h0 h1 mid).2) / 2)).bind
        fun r' =>
          thetaLoop thetaIn i (thetaStep thetaIn r.2.2.1 h0 h1 mid).1
            (thetaStep thetaIn r.2.2.1 h0 h1 mid).2
            (((thetaStep thetaIn r.2.2.1 h0 h1 mid).1 +
                (thetaStep thetaIn r.2.2.1 h0 h1 mid).2) / 2) r'
    else .ok ((r.1, mid, r.2.1, r.2.2.2), i + 1)

/-- Method `fromTheta`: range check, bracket scan, then 50-capped bisection on
potential temperature. -/
def fromTheta (thetaIn : ℝ) : Except AtmosError Result :=
  if thetaIn < theta0 ∨ thetaIn > thT3 then .error (.thetaRange theta0 thT3)
  else
    match thetaBracket thetaIn with
    | none => .error .unboundLocal
    | some b =>
      (fromMeters ((b.1 + b.2) / 2)).bind fun r =>
        (thetaLoop thetaIn 50 b.1 b.2 ((b.1 + b.2) / 2) r).map Prod.fst

/-- The tuple `fromMeters` returns for an in-range altitude. -/
def mkRes (alt : ℝ) : Result := (presAt alt, tempAt alt, thetaAt alt, densAt alt)

/-- Bracket after one guarded iteration of the `fromPa` loop, as a pure map on
brackets (the midpoint is determined by the bracket). -/
def paNext (pres : ℝ) (b : ℝ × ℝ) : ℝ × ℝ :=
  paStep pres (presAt ((b.1 + b.2) / 2)) b.1 b.2 ((b.1 + b.2) / 2)

/-- Bracket after `n` guarded iterations of the `fromPa` loop. -/
def paIter (pres : ℝ) (n : ℕ) (b : ℝ × ℝ) : ℝ × ℝ := (paNext pres)^[n] b

/-- Bracket after one guarded iteration of the `fromTheta` loop. -/
def thetaNext (thetaIn : ℝ) (b : ℝ × ℝ) : ℝ × ℝ :=
  thetaStep thetaIn (thetaAt ((b.1 + b.2) / 2)) b.1 b.2 ((b.1 + b.2) / 2)

/-- Bracket after `n` guarded iterations of the `fromTheta` loop. -/
def thetaIter (thetaIn : ℝ) (n : ℕ) (b : ℝ × ℝ) : ℝ × ℝ := (thetaNext thetaIn)^[n] b

/-! ### Exact layer profiles

`fromMeters` applies exactly one `cal` call for an in-range altitude; the lemmas
below express each branch of the layer walk through globally smooth profile
functions, on which the calculus is then carried out. -/

/-- Pressure profile of a constant-lapse-rate layer (the `a ≠ 0` branch of `cal`). -/
def layerP (pb tb a hb z : ℝ) : ℝ := pb * ((tb + a * (z - hb)) / tb) ^ (-g / a / R)

/-- Pressure profile of an isothermal layer (the `a = 0` branch of `cal`). -/
def layerPiso (pb tb hb z : ℝ) : ℝ := pb * exp (-g / R / tb * (z - hb))

/-- Temperature profile of a constant-lapse-rate layer. -/
def layerT (tb a hb z : ℝ) : ℝ := tb + a * (z - hb)

/-- Potential-temperature profile of a constant-lapse-rate layer. -/
def layerTh (pb tb a hb z : ℝ) : ℝ := t2theta (layerT tb a hb z) (layerP pb tb a hb z)

/-- Potential-temperature profile of an isothermal layer. -/
def layerThIso (pb tb hb z : ℝ) : ℝ := t2theta tb (layerPiso pb tb hb z)

lemma cal_of_ne {a : ℝ} (ha : a ≠ 0) (pb tb hb z : ℝ) :
    cal pb tb a hb z = (layerP pb tb a hb z, layerT tb a hb z) := if_pos ha

lemma cal_of_zero (pb tb hb z : ℝ) :
    cal pb tb 0 hb z = (layerPiso pb tb hb z, tb) := if_neg (by simp)

lemma layerP_at_base (pb tb a hb : ℝ) (htb : tb ≠ 0) : layerP pb tb a hb hb = pb := by
  rw [layerP, sub_self, mul_zero, add_zero, div_self htb, Real.one_rpow, mul_one]

lemma layerPiso_at_base (pb tb hb : ℝ) : layerPiso pb tb hb hb = pb := by
  rw [layerPiso, sub_self, mul_zero, Real.exp_zero, mul_one]

lemma base1_def : base1 = (layerP p0 t0 (-0.0065) 0 11000, 216.65) := by
  rw [base1, cal_of_ne (by norm_num)]
  norm_num [layerT, t0, Prod.mk.injEq]

lemma base2_def : base2 = (layerPiso base1.1 216.65 11000 20000, 216.65) := by
  have h2 : base1.2 = 216.65 := by rw [base1_def]
  rw [base2, h2, cal_of_zero]

lemma base3_def : base3 = (layerP base2.1 216.65 0.001 20000 32000, 228.65) := by
  have h2 : base2.2 = 216.65 := by rw [base2_def]
  rw [base3, h2, cal_of_ne (by norm_num)]
  norm_num [layerT, Prod.mk.injEq]

/-! Branch agreement of the layer walk with the smooth profiles, on each closed
layer interval (both pieces agree at the shared boundary by construction). -/

lemma presAt_eq_L0 {z : ℝ} (hz : z ≤ 11000) :
    presAt z = layerP p0 t0 (-0.0065) 0 z := by
  rw [presAt, calAt, if_pos hz, cal_of_ne (by norm_num)]

lemma tempAt_eq_L0 {z : ℝ} (hz : z ≤ 11000) :
    tempAt z = layerT t0 (-0.0065) 0 z := by
  rw [tempAt, calAt, if_pos hz, cal_of_ne (by norm_num)]

lemma presAt_eq_L1 {z : ℝ} (h1 : 11000 ≤ z) (h2 : z ≤ 20000) :
    presAt z = layerPiso base1.1 216.65 11000 z := by
  rcases eq_or_lt_of_le h1 with h | h
  · rw [← h, presAt_eq_L0 le_rfl, layerPiso_at_base]
    rw [base1_def]
  · have h2' : base1.2 = 216.65 := by rw [base1_def]
    rw [presAt, calAt, if_neg (not_le.mpr h), if_pos h2, h2', cal_of_zero]

lemma tempAt_eq_L1 {z : ℝ} (h1 : 11000 ≤ z) (h2 : z ≤ 20000) :
    tempAt z = 216.65 := by
  rcases eq_or_lt_of_le h1 with h | h
  · rw [← h, tempAt_eq_L0 le_rfl, layerT, t0]; norm_num
  · have h2' : base1.2 = 216.65 := by rw [base1_def]
    rw [tempAt, calAt, if_neg (not_le.mpr h), if_pos h2, h2', cal_of_zero]

lemma presAt_eq_L2 {z : ℝ} (h1 : 20000 ≤ z) (h2 : z ≤ 32000) :
    presAt z = layerP base2.1 216.65 0.001 20000 z := by
  rcases eq_or_lt_of_le h1 with h | h
  · rw [← h, presAt_eq_L1 (by norm_num) le_rfl, layerP_at_base _ _ _ _ (by norm_num)]
    rw [base2_def]
  · have h2' : base2.2 = 216.65 := by rw [base2_def]
    rw [presAt, calAt, if_neg (by linarith), if_neg (not_le.mpr h), if_pos h2, h2',
      cal_of_ne (by norm_num)]

lemma tempAt_eq_L2 {z : ℝ} (h1 : 20000 ≤ z) (h2 : z ≤ 32000) :
    tempAt z = layerT 216.65 0.001 20000 z := by
  rcases eq_or_lt_of_le h1 with h | h
  · rw [← h, tempAt_eq_L1 (by norm_num) le_rfl, layerT]; norm_num
  · have h2' : base2.2 = 216.65 := by rw [base2_def]
    rw [tempAt, calAt, if_neg (by linarith), if_neg (not_le.mpr h), if_pos h2, h2',
      cal_of_ne (by norm_num)]

lemma presAt_eq_L3 {z : ℝ} (h1 : 32000 ≤ z) :
    presAt z = layerP base3.1 228.65 0.0028 32000 z := by
  rcases eq_or_lt_of_le h1 with h | h
  · rw [← h, presAt_eq_L2 (by norm_num) le_rfl, layerP_at_base _ _ _ _ (by norm_num)]
    rw [base3_def]
  · have h2' : base3.2 = 228.65 := by rw [base3_def]
    rw [presAt, calAt, if_neg (by linarith), if_neg (by linarith), if_neg (not_le.mpr h), h2',
      cal_of_ne (by norm_num)]

lemma tempAt_eq_L3 {z : ℝ} (h1 : 32000 ≤ z) :
    tempAt z = layerT 228.65 0.0028 32000 z := by
  rcases eq_or_lt_of_le h1 with h | h
  · rw [← h, tempAt_eq_L2 (by norm_num) le_rfl, layerT, layerT]; norm_num
  · have h2' : base3.2 = 228.65 := by rw [base3_def]
    rw [tempAt, calAt, if_neg (by linarith), if_neg (by linarith), if_neg (not_le.mpr h), h2',
      cal_of_ne (by norm_num)]

lemma thetaAt_eq_L0 {z : ℝ} (hz : z ≤ 11000) :
    thetaAt z = layerTh p0 t0 (-0.0065) 0 z := by
  rw [thetaAt, layerTh, presAt_eq_L0 hz, tempAt_eq_L0 hz]

lemma thetaAt_eq_L1 {z : ℝ} (h1 : 11000 ≤ z) (h2 : z ≤ 20000) :
    thetaAt z = layerThIso base1.1 216.65 11000 z := by
  rw [thetaAt, layerThIso, presAt_eq_L1 h1 h2, tempAt_eq_L1 h1 h2]

lemma thetaAt_eq_L2 {z : ℝ} (h1 : 20000 ≤ z) (h2 : z ≤ 32000) :
    thetaAt z = layerTh base2.1 216.65 0.001 20000 z := by
  rw [thetaAt, layerTh, presAt_eq_L2 h1 h2, tempAt_eq_L2 h1 h2]

lemma thetaAt_eq_L3 {z : ℝ} (h1 : 32000 ≤ z) :
    thetaAt z = layerTh base3.1 228.65 0.0028 32000 z := by
  rw [thetaAt, layerTh, presAt_eq_L3 h1, tempAt_eq_L3 h1]

/-! ### Derivatives of the layer profiles -/

lemma R_ne : R ≠ 0 := by norm_num [R]

lemma Cp_ne : Cp ≠ 0 := by norm_num [Cp]

lemma layerP_pos {pb tb a hb z : ℝ} (hpb : 0 < pb) (htb : 0 < tb)
    (hT : 0 < layerT tb a hb z) : 0 < layerP pb tb a hb z :=
  mul_pos hpb (rpow_pos_of_pos (div_pos hT htb) _)

lemma layerPiso_pos {pb tb hb z : ℝ} (hpb : 0 < pb) : 0 < layerPiso pb tb hb z :=
  mul_pos hpb (exp_pos _)

lemma layerTh_pos {pb tb a hb z : ℝ} (hpb : 0 < pb) (htb : 0 < tb)
    (hT : 0 < layerT tb a hb z) : 0 < layerTh pb tb a hb z :=
  mul_pos hT (rpow_pos_of_pos (div_pos (by norm_num) (layerP_pos hpb htb hT)) _)

lemma layerThIso_pos {pb tb hb z : ℝ} (hpb : 0 < pb) (htb : 0 < tb) :
    0 < layerThIso pb tb hb z :=
  mul_pos htb (rpow_pos_of_pos (div_pos (by norm_num) (layerPiso_pos hpb)) _)

lemma hasDerivAt_layerT (tb a hb z : ℝ) : HasDerivAt (layerT tb a hb) a z := by
  have h1 : HasDerivAt (fun y : ℝ => tb + a * (y - hb)) a z := by
    simpa using (((hasDerivAt_id z).sub_const hb).const_mul a).const_add tb
  exact h1

lemma hasDerivAt_layerP {pb tb a hb z : ℝ} (ha : a ≠ 0) (hpb : 0 < pb) (htb : 0 < tb)
    (hT : 0 < layerT tb a hb z) :
    HasDerivAt (layerP pb tb a hb)
      (-(g / R) * layerP pb tb a hb z / layerT tb a hb z) z := by
  have hbase : 0 < (tb + a * (z - hb)) / tb := div_pos (by rwa [layerT] at hT) htb
  have hlin : HasDerivAt (fun y : ℝ => (tb + a * (y - hb)) / tb) (a / tb) z :=
    (hasDerivAt_layerT tb a hb z).div_const tb
  have hpow : HasDerivAt (fun y : ℝ => ((tb + a * (y - hb)) / tb) ^ (-g / a / R))
      (a / tb * (-g / a / R) * ((tb + a * (z - hb)) / tb) ^ (-g / a / R - 1)) z :=
    hlin.rpow_const (Or.inl (ne_of_gt hbase))
  have hfin := hpow.const_mul pb
  have hfun : (fun y : ℝ => pb * ((tb + a * (y - hb)) / tb) ^ (-g / a / R)) =
      layerP pb tb a hb := rfl
  rw [hfun] at hfin
  convert hfin using 1
  rw [Real.rpow_sub_one (ne_of_gt hbase), layerP, layerT]
  have hR : R ≠ 0 := R_ne
  have hTne : tb + a * (z - hb) ≠ 0 := ne_of_gt (by rwa [layerT] at hT)
  have htb' : tb ≠ 0 := ne_of_gt htb
  field_simp
  ring

lemma hasDerivAt_layerPiso {pb tb hb : ℝ} (htb : tb ≠ 0) (z : ℝ) :
    HasDerivAt (layerPiso pb tb hb) (-(g / R) * layerPiso pb tb hb z / tb) z := by
  have hlin : HasDerivAt (fun y : ℝ => -g / R / tb * (y - hb)) (-g / R / tb) z := by
    simpa using ((hasDerivAt_id z).sub_const hb).const_mul (-g / R / tb)
  have hfin := hlin.exp.const_mul pb
  have hfun : (fun y : ℝ => pb * exp (-g / R / tb * (y - hb))) = layerPiso pb tb hb := rfl
  rw [hfun] at hfin
  convert hfin using 1
  rw [layerPiso]
  field_simp
  ring

lemma hasDerivAt_layerTh {pb tb a hb z : ℝ} (ha : a ≠ 0) (hpb : 0 < pb) (htb : 0 < tb)
    (hT : 0 < layerT tb a hb z) :
    HasDerivAt (layerTh pb tb a hb)
      ((a + g / Cp) * ((1.0e5 : ℝ) / layerP pb tb a hb z) ^ (R / Cp)) z := by
  have hP := hasDerivAt_layerP ha hpb htb hT
  have hPpos := layerP_pos hpb htb hT
  have hQpos : 0 < (1.0e5 : ℝ) / layerP pb tb a hb z := div_pos (by norm_num) hPpos
  have hQ := (hasDerivAt_const z (1.0e5 : ℝ)).div hP (ne_of_gt hPpos)
  have hpow : HasDerivAt (fun y : ℝ => ((1.0e5 : ℝ) / layerP pb tb a hb y) ^ (R / Cp))
      ((0 * layerP pb tb a hb z -
          (1.0e5 : ℝ) * (-(g / R) * layerP pb tb a hb z / layerT tb a hb z)) /
          layerP pb tb a hb z ^ 2 * (R / Cp) *
        ((1.0e5 : ℝ) / layerP pb tb a hb z) ^ (R / Cp - 1)) z :=
    hQ.rpow_const (Or.inl (ne_of_gt hQpos))
  have hmul := (hasDerivAt_layerT tb a hb z).mul hpow
  have hfun : (fun y : ℝ => layerT tb a hb y *
      ((1.0e5 : ℝ) / layerP pb tb a hb y) ^ (R / Cp)) = layerTh pb tb a hb := rfl
  rw [hfun] at hmul
  convert hmul using 1
  rw [Real.rpow_sub_one (ne_of_gt hQpos)]
  have hR : R ≠ 0 := R_ne
  have hCp : Cp ≠ 0 := Cp_ne
  have hTne : layerT tb a hb z ≠ 0 := ne_of_gt hT
  have hPne : layerP pb tb a hb z ≠ 0 := ne_of_gt hPpos
  field_simp
  ring

lemma hasDerivAt_layerThIso {pb tb hb z : ℝ} (hpb : 0 < pb) (htb : 0 < tb) :
    HasDerivAt (layerThIso pb tb hb)
      ((g / Cp) * ((1.0e5 : ℝ) / layerPiso pb tb hb z) ^ (R / Cp)) z := by
  have hP := @hasDerivAt_layerPiso pb tb hb (ne_of_gt htb) z
  have hPpos : 0 < layerPiso pb tb hb z := layerPiso_pos hpb
  have hQpos : 0 < (1.0e5 : ℝ) / layerPiso pb tb hb z := div_pos (by norm_num) hPpos
  have hQ := (hasDerivAt_const z (1.0e5 : ℝ)).div hP (ne_of_gt hPpos)
  have hpow : HasDerivAt (fun y : ℝ => ((1.0e5 : ℝ) / layerPiso pb tb hb y) ^ (R / Cp))
      ((0 * layerPiso pb tb hb z -
          (1.0e5 : ℝ) * (-(g / R) * layerPiso pb tb hb z / tb)) /
          layerPiso pb tb hb z ^ 2 * (R / Cp) *
        ((1.0e5 : ℝ) / layerPiso pb tb hb z) ^ (R / Cp - 1)) z :=
    hQ.rpow_const (Or.inl (ne_of_gt hQpos))
  have hfin := hpow.const_mul tb
  have hfun : (fun y : ℝ => tb *
      ((1.0e5 : ℝ) / layerPiso pb tb hb y) ^ (R / Cp)) = layerThIso pb tb hb := rfl
  rw [hfun] at hfin
  convert hfin using 1
  rw [Real.rpow_sub_one (ne_of_gt hQpos)]
  have hR : R ≠ 0 := R_ne
  have hCp : Cp ≠ 0 := Cp_ne
  have hPne : layerPiso pb tb hb z ≠ 0 := ne_of_gt hPpos
  field_simp
  ring

/-! ### Mean-value helpers -/

lemma gap_upper_of_deriv {f f' : ℝ → ℝ} {lo hi C : ℝ}
    (hd : ∀ z ∈ Icc lo hi, HasDerivAt f (f' z) z)
    (hb : ∀ z ∈ Ioo lo hi, f' z ≤ C) :
    ∀ u ∈ Icc lo hi, ∀ v ∈ Icc lo hi, u ≤ v → f v - f u ≤ C * (v - u) := by
  have hc : ContinuousOn f (Icc lo hi) := fun z hz =>
    (hd z hz).continuousAt.continuousWithinAt
  have hdiff : DifferentiableOn ℝ f (interior (Icc lo hi)) := by
    rw [interior_Icc]
    exact fun z hz => ((hd z (Ioo_subset_Icc_self hz)).differentiableAt).differentiableWithinAt
  have hder : ∀ z ∈ interior (Icc lo hi), deriv f z ≤ C := by
    rw [interior_Icc]
    intro z hz
    rw [(hd z (Ioo_subset_Icc_self hz)).deriv]
    exact hb z hz
  intro u hu v hv huv
  exact (convex_Icc lo hi).image_sub_le_mul_sub_of_deriv_le hc hdiff hder u hu v hv huv

lemma gap_lower_of_deriv {f f' : ℝ → ℝ} {lo hi C : ℝ}
    (hd : ∀ z ∈ Icc lo hi, HasDerivAt f (f' z) z)
    (hb : ∀ z ∈ Ioo lo hi, C ≤ f' z) :
    ∀ u ∈ Icc lo hi, ∀ v ∈ Icc lo hi, u ≤ v → C * (v - u) ≤ f v - f u := by
  have hc : ContinuousOn f (Icc lo hi) := fun z hz =>
    (hd z hz).continuousAt.continuousWithinAt
  have hdiff : DifferentiableOn ℝ f (interior (Icc lo hi)) := by
    rw [interior_Icc]
    exact fun z hz => ((hd z (Ioo_subset_Icc_self hz)).differentiableAt).differentiableWithinAt
  have hder : ∀ z ∈ interior (Icc lo hi), C ≤ deriv f z := by
    rw [interior_Icc]
    intro z hz
    rw [(hd z (Ioo_subset_Icc_self hz)).deriv]
    exact hb z hz
  intro u hu v hv huv
  exact (convex_Icc lo hi).mul_sub_le_image_sub_of_le_deriv hc hdiff hder u hu v hv huv

lemma strictAntiOn_of_deriv {f f' : ℝ → ℝ} {lo hi : ℝ}
    (hd : ∀ z ∈ Icc lo hi, HasDerivAt f (f' z) z)
    (hb : ∀ z ∈ Ioo lo hi, f' z < 0) : StrictAntiOn f (Icc lo hi) := by
  have hc : ContinuousOn f (Icc lo hi) := fun z hz =>
    (hd z hz).continuousAt.continuousWithinAt
  refine strictAntiOn_of_deriv_neg (convex_Icc lo hi) hc ?_
  rw [interior_Icc]
  intro z hz
  rw [(hd z (Ioo_subset_Icc_self hz)).deriv]
  exact hb z hz

lemma strictMonoOn_of_deriv {f f' : ℝ → ℝ} {lo hi : ℝ}
    (hd : ∀ z ∈ Icc lo hi, HasDerivAt f (f' z) z)
    (hb : ∀ z ∈ Ioo lo hi, 0 < f' z) : StrictMonoOn f (Icc lo hi) := by
  have hc : ContinuousOn f (Icc lo hi) := fun z hz =>
    (hd z hz).continuousAt.continuousWithinAt
  refine strictMonoOn_of_deriv_pos (convex_Icc lo hi) hc ?_
  rw [interior_Icc]
  intro z hz
  rw [(hd z (Ioo_subset_Icc_self hz)).deriv]
  exact hb z hz

lemma strictAntiOn_congr {f q : ℝ → ℝ} {s : Set ℝ}
    (h : ∀ x ∈ s, f x = q x) (hf : StrictAntiOn f s) : StrictAntiOn q s :=
  fun x hx y hy hxy => by rw [← h x hx, ← h y hy]; exact hf hx hy hxy

lemma strictMonoOn_congr {f q : ℝ → ℝ} {s : Set ℝ}
    (h : ∀ x ∈ s, f x = q x) (hf : StrictMonoOn f s) : StrictMonoOn q s :=
  fun x hx y hy hxy => by rw [← h x hx, ← h y hy]; exact hf hx hy hxy

lemma strictAntiOn_Icc_glue {f : ℝ → ℝ} {x y z : ℝ} (hxy : x ≤ y) (hyz : y ≤ z)
    (h1 : StrictAntiOn f (Icc x y)) (h2 : StrictAntiOn f (Icc y z)) :
    StrictAntiOn f (Icc x z) := by
  intro a ha b hb hab
  rcases le_or_lt b y with hby | hyb
  · exact h1 ⟨ha.1, hab.le.trans hby⟩ ⟨hb.1, hby⟩ hab
  · rcases le_or_lt a y with hay | hya
    · have hfb : f b < f y := h2 ⟨le_rfl, hyz⟩ ⟨hyb.le, hb.2⟩ hyb
      rcases eq_or_lt_of_le hay with h | h
      · rw [← h] at hfb; exact hfb
      · exact hfb.trans (h1 ⟨ha.1, hay⟩ ⟨hxy, le_rfl⟩ h)
    · exact h2 ⟨hya.le, ha.2⟩ ⟨hyb.le, hb.2⟩ hab

lemma strictMonoOn_Icc_glue {f : ℝ → ℝ} {x y z : ℝ} (hxy : x ≤ y) (hyz : y ≤ z)
    (h1 : StrictMonoOn f (Icc x y)) (h2 : StrictMonoOn f (Icc y z)) :
    StrictMonoOn f (Icc x z) := by
  intro a ha b hb hab
  rcases le_or_lt b y with hby | hyb
  · exact h1 ⟨ha.1, hab.le.trans hby⟩ ⟨hb.1, hby⟩ hab
  · rcases le_or_lt a y with hay | hya
    · have hfb : f y < f b := h2 ⟨le_rfl, hyz⟩ ⟨hyb.le, hb.2⟩ hyb
      rcases eq_or_lt_of_le hay with h | h
      · rw [← h] at hfb; exact hfb
      · exact (h1 ⟨ha.1, hay⟩ ⟨hxy, le_rfl⟩ h).trans hfb
    · exact h2 ⟨hya.le, ha.2⟩ ⟨hyb.le, hb.2⟩ hab

lemma gap_lower_glue {f : ℝ → ℝ} {m x y z : ℝ} (hxy : x ≤ y) (hyz : y ≤ z)
    (h1 : ∀ u ∈ Icc x y, ∀ v ∈ Icc x y, u ≤ v → m * (v - u) ≤ f v - f u)
    (h2 : ∀ u ∈ Icc y z, ∀ v ∈ Icc y z, u ≤ v → m * (v - u) ≤ f v - f u) :
    ∀ u ∈ Icc x z, ∀ v ∈ Icc x z, u ≤ v → m * (v - u) ≤ f v - f u := by
  intro u hu v hv huv
  rcases le_or_lt v y with hvy | hyv
  · exact h1 u ⟨hu.1, huv.trans hvy⟩ v ⟨hv.1, hvy⟩ huv
  · rcases le_or_lt u y with huy | hyu
    · have g1 := h1 u ⟨hu.1, huy⟩ y ⟨hxy, le_rfl⟩ huy
      have g2 := h2 y ⟨le_rfl, hyz⟩ v ⟨hyv.le, hv.2⟩ hyv.le
      linarith
    · exact h2 u ⟨hyu.le, hu.2⟩ v ⟨hyv.le, hv.2⟩ huv

lemma gap_upper_glue {f : ℝ → ℝ} {M x y z : ℝ} (hxy : x ≤ y) (hyz : y ≤ z)
    (h1 : ∀ u ∈ Icc x y, ∀ v ∈ Icc x y, u ≤ v → f v - f u ≤ M * (v - u))
    (h2 : ∀ u ∈ Icc y z, ∀ v ∈ Icc y z, u ≤ v → f v - f u ≤ M * (v - u)) :
    ∀ u ∈ Icc x z, ∀ v ∈ Icc x z, u ≤ v → f v - f u ≤ M * (v - u) := by
  intro u hu v hv huv
  rcases le_or_lt v y with hvy | hyv
  · exact h1 u ⟨hu.1, huv.trans hvy⟩ v ⟨hv.1, hvy⟩ huv
  · rcases le_or_lt u y with huy | hyu
    · have g1 := h1 u ⟨hu.1, huy⟩ y ⟨hxy, le_rfl⟩ huy
      have g2 := h2 y ⟨le_rfl, hyz⟩ v ⟨hyv.le, hv.2⟩ hyv.le
      linarith
    · exact h2 u ⟨hyu.le, hu.2⟩ v ⟨hyv.le, hv.2⟩ huv

/-! ### Per-layer facts and global monotonicity -/

lemma base1_1_pos : 0 < base1.1 := by
  rw [base1_def]
  exact layerP_pos (by norm_num [p0]) (by norm_num [t0]) (by norm_num [layerT, t0])

lemma base2_1_pos : 0 < base2.1 := by
  rw [base2_def]
  exact layerPiso_pos base1_1_pos

lemma base3_1_pos : 0 < base3.1 := by
  rw [base3_def]
  exact layerP_pos base2_1_pos (by norm_num) (by norm_num [layerT])

/-- Temperature bounds in layer 0. -/
lemma layerT_L0_bounds {z : ℝ} (h0 : 0 ≤ z) (h1 : z ≤ 11000) :
    216.65 ≤ layerT t0 (-0.0065) 0 z ∧ layerT t0 (-0.0065) 0 z ≤ 288.15 := by
  rw [layerT, t0]
  constructor <;> nlinarith

/-- Temperature bounds in layer 2. -/
lemma layerT_L2_bounds {z : ℝ} (h0 : 20000 ≤ z) (h1 : z ≤ 32000) :
    216.65 ≤ layerT 216.65 0.001 20000 z ∧ layerT 216.65 0.001 20000 z ≤ 228.65 := by
  rw [layerT]
  constructor <;> nlinarith

/-- Temperature bounds in layer 3. -/
lemma layerT_L3_bounds {z : ℝ} (h0 : 32000 ≤ z) (h1 : z ≤ 47000) :
    228.65 ≤ layerT 228.65 0.0028 32000 z ∧ layerT 228.65 0.0028 32000 z ≤ 270.65 := by
  rw [layerT]
  constructor <;> nlinarith

lemma presDeriv_L0 : ∀ z ∈ Icc (0 : ℝ) 11000,
    HasDerivAt (layerP p0 t0 (-0.0065) 0)
      (-(g / R) * layerP p0 t0 (-0.0065) 0 z / layerT t0 (-0.0065) 0 z) z :=
  fun z hz => hasDerivAt_layerP (by norm_num) (by norm_num [p0]) (by norm_num [t0])
    (lt_of_lt_of_le (by norm_num) (layerT_L0_bounds hz.1 hz.2).1)

lemma presDeriv_L1 : ∀ z ∈ Icc (11000 : ℝ) 20000,
    HasDerivAt (layerPiso base1.1 216.65 11000)
      (-(g / R) * layerPiso base1.1 216.65 11000 z / 216.65) z :=
  fun z _ => hasDerivAt_layerPiso (by norm_num) z

lemma presDeriv_L2 : ∀ z ∈ Icc (20000 : ℝ) 32000,
    HasDerivAt (layerP base2.1 216.65 0.001 20000)
      (-(g / R) * layerP base2.1 216.65 0.001 20000 z / layerT 216.65 0.001 20000 z) z :=
  fun z hz => hasDerivAt_layerP (by norm_num) base2_1_pos (by norm_num)
    (lt_of_lt_of_le (by norm_num) (layerT_L2_bounds hz.1 hz.2).1)

lemma presDeriv_L3 : ∀ z ∈ Icc (32000 : ℝ) 47000,
    HasDerivAt (layerP base3.1 228.65 0.0028 32000)
      (-(g / R) * layerP base3.1 228.65 0.0028 32000 z / layerT 228.65 0.0028 32000 z) z :=
  fun z hz => hasDerivAt_layerP (by norm_num) base3_1_pos (by norm_num)
    (lt_of_lt_of_le (by norm_num) (layerT_L3_bounds hz.1 hz.2).1)

lemma gR_pos : 0 < g / R := by norm_num [g, R]

lemma presAt_anti_L0 : StrictAntiOn presAt (Icc (0 : ℝ) 11000) := by
  refine strictAntiOn_congr (fun x hx => (presAt_eq_L0 hx.2).symm) ?_
  refine strictAntiOn_of_deriv presDeriv_L0 ?_
  intro z hz
  have hT : 0 < layerT t0 (-0.0065) 0 z :=
    lt_of_lt_of_le (by norm_num) (layerT_L0_bounds hz.1.le hz.2.le).1
  have hP : 0 < layerP p0 t0 (-0.0065) 0 z :=
    layerP_pos (by norm_num [p0]) (by norm_num [t0]) hT
  exact div_neg_of_neg_of_pos (by nlinarith [gR_pos]) hT

lemma presAt_anti_L1 : StrictAntiOn presAt (Icc (11000 : ℝ) 20000) := by
  refine strictAntiOn_congr (fun x hx => (presAt_eq_L1 hx.1 hx.2).symm) ?_
  refine strictAntiOn_of_deriv presDeriv_L1 ?_
  intro z _
  have hP : 0 < layerPiso base1.1 216.65 11000 z := layerPiso_pos base1_1_pos
  exact div_neg_of_neg_of_pos (by nlinarith [gR_pos]) (by norm_num)

lemma presAt_anti_L2 : StrictAntiOn presAt (Icc (20000 : ℝ) 32000) := by
  refine strictAntiOn_congr (fun x hx => (presAt_eq_L2 hx.1 hx.2).symm) ?_
  refine strictAntiOn_of_deriv presDeriv_L2 ?_
  intro z hz
  have hT : 0 < layerT 216.65 0.001 20000 z :=
    lt_of_lt_of_le (by norm_num) (layerT_L2_bounds hz.1.le hz.2.le).1
  have hP : 0 < layerP base2.1 216.65 0.001 20000 z :=
    layerP_pos base2_1_pos (by norm_num) hT
  exact div_neg_of_neg_of_pos (by nlinarith [gR_pos]) hT

lemma presAt_anti_L3 : StrictAntiOn presAt (Icc (32000 : ℝ) 47000) := by
  refine strictAntiOn_congr (fun x hx => (presAt_eq_L3 hx.1).symm) ?_
  refine strictAntiOn_of_deriv presDeriv_L3 ?_
  intro z hz
  have hT : 0 < layerT 228.65 0.0028 32000 z :=
    lt_of_lt_of_le (by norm_num) (layerT_L3_bounds hz.1.le hz.2.le).1
  have hP : 0 < layerP base3.1 228.65 0.0028 32000 z :=
    layerP_pos base3_1_pos (by norm_num) hT
  exact div_neg_of_neg_of_pos (by nlinarith [gR_pos]) hT

/-- Pressure is strictly decreasing over the whole model domain. -/
lemma presAt_anti : StrictAntiOn presAt (Icc (0 : ℝ) 47000) := by
  refine strictAntiOn_Icc_glue (by norm_num) (by norm_num)
    (strictAntiOn_Icc_glue (by norm_num) (by norm_num)
      (strictAntiOn_Icc_glue (by norm_num) (by norm_num) presAt_anti_L0 presAt_anti_L1)
      presAt_anti_L2)
    presAt_anti_L3

lemma thetaDeriv_L0 : ∀ z ∈ Icc (0 : ℝ) 11000,
    HasDerivAt (layerTh p0 t0 (-0.0065) 0)
      ((-0.0065 + g / Cp) *
        ((1.0e5 : ℝ) / layerP p0 t0 (-0.0065) 0 z) ^ (R / Cp)) z :=
  fun z hz => hasDerivAt_layerTh (by norm_num) (by norm_num [p0]) (by norm_num [t0])
    (lt_of_lt_of_le (by norm_num) (layerT_L0_bounds hz.1 hz.2).1)

lemma thetaDeriv_L1 : ∀ z ∈ Icc (11000 : ℝ) 20000,
    HasDerivAt (layerThIso base1.1 216.65 11000)
      ((g / Cp) * ((1.0e5 : ℝ) / layerPiso base1.1 216.65 11000 z) ^ (R / Cp)) z :=
  fun z _ => hasDerivAt_layerThIso base1_1_pos (by norm_num)

lemma thetaDeriv_L2 : ∀ z ∈ Icc (20000 : ℝ) 32000,
    HasDerivAt (layerTh base2.1 216.65 0.001 20000)
      ((0.001 + g / Cp) *
        ((1.0e5 : ℝ) / layerP base2.1 216.65 0.001 20000 z) ^ (R / Cp)) z :=
  fun z hz => hasDerivAt_layerTh (by norm_num) base2_1_pos (by norm_num)
    (lt_of_lt_of_le (by norm_num) (layerT_L2_bounds hz.1 hz.2).1)

lemma thetaDeriv_L3 : ∀ z ∈ Icc (32000 : ℝ) 47000,
    HasDerivAt (layerTh base3.1 228.65 0.0028 32000)
      ((0.0028 + g / Cp) *
        ((1.0e5 : ℝ) / layerP base3.1 228.65 0.0028 32000 z) ^ (R / Cp)) z :=
  fun z hz => hasDerivAt_layerTh (by norm_num) base3_1_pos (by norm_num)
    (lt_of_lt_of_le (by norm_num) (layerT_L3_bounds hz.1 hz.2).1)

lemma thetaAt_mono_L0 : StrictMonoOn thetaAt (Icc (0 : ℝ) 11000) := by
  refine strictMonoOn_congr (fun x hx => (thetaAt_eq_L0 hx.2).symm) ?_
  refine strictMonoOn_of_deriv thetaDeriv_L0 ?_
  intro z hz
  have hT : 0 < layerT t0 (-0.0065) 0 z :=
    lt_of_lt_of_le (by norm_num) (layerT_L0_bounds hz.1.le hz.2.le).1
  have hP : 0 < layerP p0 t0 (-0.0065) 0 z :=
    layerP_pos (by norm_num [p0]) (by norm_num [t0]) hT
  have hQ : (0 : ℝ) < ((1.0e5 : ℝ) / layerP p0 t0 (-0.0065) 0 z) ^ (R / Cp) :=
    rpow_pos_of_pos (div_pos (by norm_num) hP) _
  have hc : (0 : ℝ) < -0.0065 + g / Cp := by norm_num [g, Cp]
  exact mul_pos hc hQ

lemma thetaAt_mono_L1 : StrictMonoOn thetaAt (Icc (11000 : ℝ) 20000) := by
  refine strictMonoOn_congr (fun x hx => (thetaAt_eq_L1 hx.1 hx.2).symm) ?_
  refine strictMonoOn_of_deriv thetaDeriv_L1 ?_
  intro z _
  have hP : 0 < layerPiso base1.1 216.65 11000 z := layerPiso_pos base1_1_pos
  have hQ : (0 : ℝ) < ((1.0e5 : ℝ) / layerPiso base1.1 216.65 11000 z) ^ (R / Cp) :=
    rpow_pos_of_pos (div_pos (by norm_num) hP) _
  have hc : (0 : ℝ) < g / Cp := by norm_num [g, Cp]
  exact mul_pos hc hQ

lemma thetaAt_mono_L2 : StrictMonoOn thetaAt (Icc (20000 : ℝ) 32000) := by
  refine strictMonoOn_congr (fun x hx => (thetaAt_eq_L2 hx.1 hx.2).symm) ?_
  refine strictMonoOn_of_deriv thetaDeriv_L2 ?_
  intro z hz
  have hT : 0 < layerT 216.65 0.001 20000 z :=
    lt_of_lt_of_le (by norm_num) (layerT_L2_bounds hz.1.le hz.2.le).1
  have hP : 0 < layerP base2.1 216.65 0.001 20000 z :=
    layerP_pos base2_1_pos (by norm_num) hT
  have hQ : (0 : ℝ) < ((1.0e5 : ℝ) / layerP base2.1 216.65 0.001 20000 z) ^ (R / Cp) :=
    rpow_pos_of_pos (div_pos (by norm_num) hP) _
  have hc : (0 : ℝ) < 0.001 + g / Cp := by norm_num [g, Cp]
  exact mul_pos hc hQ

lemma thetaAt_mono_L3 : StrictMonoOn thetaAt (Icc (32000 : ℝ) 47000) := by
  refine strictMonoOn_congr (fun x hx => (thetaAt_eq_L3 hx.1).symm) ?_
  refine strictMonoOn_of_deriv thetaDeriv_L3 ?_
  intro z hz
  have hT : 0 < layerT 228.65 0.0028 32000 z :=
    lt_of_lt_of_le (by norm_num) (layerT_L3_bounds hz.1.le hz.2.le).1
  have hP : 0 < layerP base3.1 228.65 0.0028 32000 z :=
    layerP_pos base3_1_pos (by norm_num) hT
  have hQ : (0 : ℝ) < ((1.0e5 : ℝ) / layerP base3.1 228.65 0.0028 32000 z) ^ (R / Cp) :=
    rpow_pos_of_pos (div_pos (by norm_num) hP) _
  have hc : (0 : ℝ) < 0.0028 + g / Cp := by norm_num [g, Cp]
  exact mul_pos hc hQ

/-- Potential temperature is strictly increasing over the whole model domain. -/
lemma thetaAt_mono : StrictMonoOn thetaAt (Icc (0 : ℝ) 47000) := by
  refine strictMonoOn_Icc_glue (by norm_num) (by norm_num)
    (strictMonoOn_Icc_glue (by norm_num) (by norm_num)
      (strictMonoOn_Icc_glue (by norm_num) (by norm_num) thetaAt_mono_L0 thetaAt_mono_L1)
      thetaAt_mono_L2)
    thetaAt_mono_L3

/-! ### Certified bounds on the transcendental constants

Taylor bounds on `exp` at rational points give verified enclosures for the
layer-top pressure `p[3]`, the ground potential temperature `theta0` and the
layer-top potential temperature `theta[0]`. -/

lemma exp_taylor_bound {x : ℝ} (h0 : 0 ≤ x) (h1 : x ≤ 1) :
    |exp x - (1 + x + x ^ 2 / 2 + x ^ 3 / 6 + x ^ 4 / 24 + x ^ 5 / 120 + x ^ 6 / 720)| ≤
      x ^ 7 / 4410 := by
  have habs : |x| ≤ 1 := by rwa [abs_of_nonneg h0]
  have h := @Real.exp_bound x habs 7 (by norm_num)
  have hsum : ∑ m ∈ Finset.range 7, x ^ m / m.factorial =
      1 + x + x ^ 2 / 2 + x ^ 3 / 6 + x ^ 4 / 24 + x ^ 5 / 120 + x ^ 6 / 720 := by
    simp [Finset.sum_range_succ, Nat.factorial]
  rw [hsum, abs_of_nonneg h0] at h
  have hc : (((Nat.succ 7 : ℕ) : ℝ)) / (((Nat.factorial 7 : ℕ) : ℝ) * ((7 : ℕ) : ℝ)) =
      1 / 4410 := by
    norm_num [Nat.factorial]
  rw [hc, mul_one_div] at h
  exact h

lemma exp_le_taylor {x : ℝ} (h0 : 0 ≤ x) (h1 : x ≤ 1) :
    exp x ≤ 1 + x + x ^ 2 / 2 + x ^ 3 / 6 + x ^ 4 / 24 + x ^ 5 / 120 + x ^ 6 / 720 +
      x ^ 7 / 4410 := by
  have h := abs_le.mp (exp_taylor_bound h0 h1)
  linarith [h.2]

lemma taylor_le_exp {x : ℝ} (h0 : 0 ≤ x) (h1 : x ≤ 1) :
    1 + x + x ^ 2 / 2 + x ^ 3 / 6 + x ^ 4 / 24 + x ^ 5 / 120 + x ^ 6 / 720 -
      x ^ 7 / 4410 ≤ exp x := by
  have h := abs_le.mp (exp_taylor_bound h0 h1)
  linarith [h.1]

lemma log_lt_of_exp_gt {r u : ℝ} (hr : 0 < r) (h : r < exp u) : Real.log r < u := by
  rw [← Real.exp_lt_exp, Real.exp_log hr]
  exact h

/-- Certified: `log(5763/4333) < 0.2855` (layer-0 temperature ratio). -/
lemma log_r0_lt : Real.log ((5763 : ℝ) / 4333) < 0.2855 := by
  have h : (1 : ℝ) + 0.2855 + 0.2855 ^ 2 / 2 + 0.2855 ^ 3 / 6 + 0.2855 ^ 4 / 24 +
      0.2855 ^ 5 / 120 + 0.2855 ^ 6 / 720 - 0.2855 ^ 7 / 4410 ≤ exp 0.2855 :=
    taylor_le_exp (by norm_num) (by norm_num)
  exact log_lt_of_exp_gt (by norm_num) (lt_of_lt_of_le (by norm_num) h)

/-- Certified: `log(4573/4333) < 0.054` (layer-2 temperature ratio). -/
lemma log_r2_lt : Real.log ((4573 : ℝ) / 4333) < 0.054 := by
  have h : (1 : ℝ) + 0.054 + 0.054 ^ 2 / 2 + 0.054 ^ 3 / 6 + 0.054 ^ 4 / 24 +
      0.054 ^ 5 / 120 + 0.054 ^ 6 / 720 - 0.054 ^ 7 / 4410 ≤ exp 0.054 :=
    taylor_le_exp (by norm_num) (by norm_num)
  exact log_lt_of_exp_gt (by norm_num) (lt_of_lt_of_le (by norm_num) h)

/-- Certified: `log(5413/4573) < 0.169` (layer-3 temperature ratio). -/
lemma log_r3_lt : Real.log ((5413 : ℝ) / 4573) < 0.169 := by
  have h : (1 : ℝ) + 0.169 + 0.169 ^ 2 / 2 + 0.169 ^ 3 / 6 + 0.169 ^ 4 / 24 +
      0.169 ^ 5 / 120 + 0.169 ^ 6 / 720 - 0.169 ^ 7 / 4410 ≤ exp 0.169 :=
    taylor_le_exp (by norm_num) (by norm_num)
  exact log_lt_of_exp_gt (by norm_num) (lt_of_lt_of_le (by norm_num) h)

/-- Certified: `log(4053/4000) < 0.013175` (reference-pressure ratio). -/
lemma log_rc_lt : Real.log ((4053 : ℝ) / 4000) < 0.013175 := by
  have h : (1 : ℝ) + 0.013175 + 0.013175 ^ 2 / 2 + 0.013175 ^ 3 / 6 + 0.013175 ^ 4 / 24 +
      0.013175 ^ 5 / 120 + 0.013175 ^ 6 / 720 - 0.013175 ^ 7 / 4410 ≤ exp 0.013175 :=
    taylor_le_exp (by norm_num) (by norm_num)
  exact log_lt_of_exp_gt (by norm_num) (lt_of_lt_of_le (by norm_num) h)

/-- The layer-0 base pressure in exponential form. -/
lemma base1_1_exp :
    base1.1 = 101325 * exp (-(Real.log ((5763 : ℝ) / 4333) * (196133 / 37310))) := by
  have h : base1.1 = 101325 * ((4333 : ℝ) / 5763) ^ ((196133 : ℝ) / 37310) := by
    have h1 : base1.1 = layerP p0 t0 (-0.0065) 0 11000 := by rw [base1_def]
    rw [h1, layerP]
    norm_num [p0, t0, g, R]
  rw [h, Real.rpow_def_of_pos (by norm_num)]
  have h2 : Real.log ((4333 : ℝ) / 5763) = -Real.log ((5763 : ℝ) / 4333) := by
    rw [show ((4333 : ℝ) / 5763) = ((5763 : ℝ) / 4333)⁻¹ by norm_num, Real.log_inv]
  rw [h2]
  ring_nf

/-- The layer-1 base pressure in exponential form. -/
lemma base2_1_exp :
    base2.1 = base1.1 * exp (-((1765197 : ℝ) / 1243571)) := by
  have h1 : base2.1 = layerPiso base1.1 216.65 11000 20000 := by rw [base2_def]
  rw [h1, layerPiso]
  norm_num [g, R]

/-- The layer-2 base pressure in exponential form. -/
lemma base3_1_exp :
    base3.1 = base2.1 * exp (Real.log ((4573 : ℝ) / 4333) * (-(196133 / 5740))) := by
  have h1 : base3.1 = layerP base2.1 216.65 0.001 20000 32000 := by rw [base3_def]
  rw [h1, layerP]
  have h : ((216.65 + 0.001 * (32000 - 20000)) / 216.65 : ℝ) = (4573 : ℝ) / 4333 := by
    norm_num
  rw [h, Real.rpow_def_of_pos (by norm_num)]
  norm_num [g, R]

/-- The top-of-model pressure in exponential form. -/
lemma pT3_exp :
    pT3 = base3.1 * exp (Real.log ((5413 : ℝ) / 4573) * (-(196133 / 16072))) := by
  rw [pT3, presAt_eq_L3 (by norm_num), layerP]
  have h : ((228.65 + 0.0028 * (47000 - 32000)) / 228.65 : ℝ) = (5413 : ℝ) / 4573 := by
    norm_num
  rw [h, Real.rpow_def_of_pos (by norm_num)]
  norm_num [g, R]

/-- Certified lower bound on the top-of-model pressure: `p[3] > 100` Pa. -/
lemma pT3_gt_100 : 100 < pT3 := by
  have hU8 : ((196133 : ℝ) / 37310 * 0.2855 + 1765197 / 1243571 + 196133 / 5740 * 0.054 +
      196133 / 16072 * 0.169) / 8 ≤ 1 := by norm_num
  have hU8' : (0 : ℝ) ≤ ((196133 : ℝ) / 37310 * 0.2855 + 1765197 / 1243571 +
      196133 / 5740 * 0.054 + 196133 / 16072 * 0.169) / 8 := by norm_num
  set x : ℝ := ((196133 : ℝ) / 37310 * 0.2855 + 1765197 / 1243571 + 196133 / 5740 * 0.054 +
      196133 / 16072 * 0.169) / 8 with hx
  have hexpx : exp x ≤ 2.3479 := by
    refine le_trans (exp_le_taylor hU8' hU8) ?_
    rw [hx]
    norm_num
  have hexpU : exp (8 * x) ≤ (2.3479 : ℝ) ^ (8 : ℕ) := by
    rw [show (8 : ℝ) * x = ((8 : ℕ) : ℝ) * x by norm_num, Real.exp_nat_mul]
    exact pow_le_pow_left (le_of_lt (exp_pos x)) hexpx 8
  have hmul4 : ∀ c a b d e : ℝ, c * exp a * exp b * exp d * exp e = c * exp (a + b + d + e) := by
    intro c a b d e
    rw [Real.exp_add, Real.exp_add, Real.exp_add]
    ring
  have hpT3 : pT3 = 101325 *
      exp (-(Real.log ((5763 : ℝ) / 4333) * (196133 / 37310) + 1765197 / 1243571 +
        Real.log ((4573 : ℝ) / 4333) * (196133 / 5740) +
        Real.log ((5413 : ℝ) / 4573) * (196133 / 16072))) := by
    rw [pT3_exp, base3_1_exp, base2_1_exp, base1_1_exp, hmul4]
    congr 1
    ring
  have hS : Real.log ((5763 : ℝ) / 4333) * (196133 / 37310) + 1765197 / 1243571 +
      Real.log ((4573 : ℝ) / 4333) * (196133 / 5740) +
      Real.log ((5413 : ℝ) / 4573) * (196133 / 16072) ≤ 8 * x := by
    have h0 := mul_le_mul_of_nonneg_right log_r0_lt.le
      (show (0 : ℝ) ≤ 196133 / 37310 by norm_num)
    have h2 := mul_le_mul_of_nonneg_right log_r2_lt.le
      (show (0 : ℝ) ≤ 196133 / 5740 by norm_num)
    have h3 := mul_le_mul_of_nonneg_right log_r3_lt.le
      (show (0 : ℝ) ≤ 196133 / 16072 by norm_num)
    rw [hx]
    linarith
  have hmono : exp (-(8 * x)) ≤
      exp (-(Real.log ((5763 : ℝ) / 4333) * (196133 / 37310) + 1765197 / 1243571 +
        Real.log ((4573 : ℝ) / 4333) * (196133 / 5740) +
        Real.log ((5413 : ℝ) / 4573) * (196133 / 16072))) :=
    Real.exp_le_exp.mpr (by linarith)
  have hlow : (101325 : ℝ) / (2.3479 : ℝ) ^ (8 : ℕ) ≤ pT3 := by
    rw [hpT3]
    have hinv : 1 / (2.3479 : ℝ) ^ (8 : ℕ) ≤ 1 / exp (8 * x) :=
      one_div_le_one_div_of_le (exp_pos _) hexpU
    have h1 : (101325 : ℝ) / (2.3479 : ℝ) ^ (8 : ℕ) ≤ 101325 * exp (-(8 * x)) := by
      rw [Real.exp_neg, ← one_div]
      calc (101325 : ℝ) / (2.3479 : ℝ) ^ (8 : ℕ)
          = 101325 * (1 / (2.3479 : ℝ) ^ (8 : ℕ)) := by ring
        _ ≤ 101325 * (1 / exp (8 * x)) := by
            exact mul_le_mul_of_nonneg_left hinv (by norm_num)
    refine le_trans h1 ?_
    exact mul_le_mul_of_nonneg_left hmono (by norm_num)
  refine lt_of_lt_of_le ?_ hlow
  norm_num

/-- The ground potential temperature in exponential form. -/
lemma theta0_exp :
    theta0 = 288.15 * exp (-(Real.log ((4053 : ℝ) / 4000) * (2870 / 10057))) := by
  rw [theta0, t2theta, t0, p0]
  have h : ((1.0e5 : ℝ) / 101325) = (4000 : ℝ) / 4053 := by norm_num
  rw [h, Real.rpow_def_of_pos (by norm_num)]
  have h2 : Real.log ((4000 : ℝ) / 4053) = -Real.log ((4053 : ℝ) / 4000) := by
    rw [show ((4000 : ℝ) / 4053) = ((4053 : ℝ) / 4000)⁻¹ by norm_num, Real.log_inv]
  rw [h2]
  norm_num [R, Cp]

/-- Certified lower bound on the ground potential temperature. -/
lemma theta0_ge : 287.06 ≤ theta0 := by
  rw [theta0_exp]
  have hlog : Real.log ((4053 : ℝ) / 4000) * (2870 / 10057) ≤ 0.013175 * (2870 / 10057) :=
    mul_le_mul_of_nonneg_right log_rc_lt.le (by norm_num)
  have h1 : (1 : ℝ) + -(0.013175 * (2870 / 10057)) ≤ exp (-(0.013175 * (2870 / 10057))) := by
    have := Real.add_one_le_exp (-(0.013175 * (2870 / 10057) : ℝ))
    linarith
  have h2 : exp (-(0.013175 * (2870 / 10057) : ℝ)) ≤
      exp (-(Real.log ((4053 : ℝ) / 4000) * (2870 / 10057))) :=
    Real.exp_le_exp.mpr (by linarith)
  nlinarith

/-- Certified upper bound on the layer-0 ceiling potential temperature. -/
lemma thT0_le : thT0 ≤ 333 := by
  have h1 : thT0 = 216.65 * ((1.0e5 : ℝ) / base1.1) ^ (R / Cp) := by
    rw [thT0, thetaAt_eq_L0 (by norm_num), layerTh, t2theta]
    have hT : layerT t0 (-0.0065) 0 11000 = 216.65 := by norm_num [layerT, t0]
    have hP : layerP p0 t0 (-0.0065) 0 11000 = base1.1 := by rw [base1_def]
    rw [hT, hP]
  have hq : (1.0e5 : ℝ) / base1.1 =
      (4000 / 4053) * exp (Real.log ((5763 : ℝ) / 4333) * (196133 / 37310)) := by
    rw [base1_1_exp]
    rw [Real.exp_neg]
    field_simp
    ring
  have hqpos : (0 : ℝ) < (4000 / 4053 : ℝ) * exp (Real.log ((5763 : ℝ) / 4333) *
      (196133 / 37310)) := mul_pos (by norm_num) (exp_pos _)
  rw [h1, hq, Real.rpow_def_of_pos hqpos]
  have hlogq : Real.log ((4000 / 4053 : ℝ) * exp (Real.log ((5763 : ℝ) / 4333) *
      (196133 / 37310))) = Real.log ((4000 : ℝ) / 4053) +
      Real.log ((5763 : ℝ) / 4333) * (196133 / 37310) := by
    rw [Real.log_mul (by norm_num) (ne_of_gt (exp_pos _)), Real.log_exp]
  rw [hlogq]
  have hneg : Real.log ((4000 : ℝ) / 4053) < 0 := Real.log_neg (by norm_num) (by norm_num)
  have harg : (Real.log ((4000 : ℝ) / 4053) +
      Real.log ((5763 : ℝ) / 4333) * (196133 / 37310)) * (R / Cp) ≤
      0.2855 * (196133 / 37310) * (2870 / 10057) := by
    have hRC : R / Cp = (2870 : ℝ) / 10057 := by norm_num [R, Cp]
    rw [hRC]
    have hl0 : Real.log ((5763 : ℝ) / 4333) * (196133 / 37310) ≤
        0.2855 * (196133 / 37310) :=
      mul_le_mul_of_nonneg_right log_r0_lt.le (by norm_num)
    nlinarith
  have hx1 : (0.2855 : ℝ) * (196133 / 37310) * (2870 / 10057) ≤ 1 := by norm_num
  have hx0 : (0 : ℝ) ≤ 0.2855 * (196133 / 37310) * (2870 / 10057) := by norm_num
  have hexp : exp ((Real.log ((4000 : ℝ) / 4053) +
      Real.log ((5763 : ℝ) / 4333) * (196133 / 37310)) * (R / Cp)) ≤
      exp (0.2855 * (196133 / 37310) * (2870 / 10057)) := Real.exp_le_exp.mpr harg
  have htay : exp ((0.2855 : ℝ) * (196133 / 37310) * (2870 / 10057)) ≤ 1.536 := by
    refine le_trans (exp_le_taylor hx0 hx1) ?_
    norm_num
  nlinarith

/-! ### Global range bounds -/

lemma presAt_zero : presAt 0 = p0 := by
  rw [presAt_eq_L0 (by norm_num), layerP_at_base p0 t0 (-0.0065) 0 (by norm_num [t0])]

lemma tempAt_zero : tempAt 0 = t0 := by
  rw [tempAt_eq_L0 (by norm_num), layerT]
  ring

lemma thetaAt_zero : thetaAt 0 = theta0 := by
  rw [thetaAt, tempAt_zero, presAt_zero, theta0]

lemma presAt_le_p0 {z : ℝ} (h0 : 0 ≤ z) (h1 : z ≤ 47000) : presAt z ≤ p0 := by
  rw [← presAt_zero]
  exact presAt_anti.antitoneOn ⟨le_rfl, by norm_num⟩ ⟨h0, h1⟩ h0

lemma pT3_le_presAt {z : ℝ} (h0 : 0 ≤ z) (h1 : z ≤ 47000) : pT3 ≤ presAt z :=
  presAt_anti.antitoneOn ⟨h0, h1⟩ ⟨by norm_num, le_rfl⟩ h1

lemma presAt_gt_100 {z : ℝ} (h0 : 0 ≤ z) (h1 : z ≤ 47000) : 100 < presAt z :=
  lt_of_lt_of_le pT3_gt_100 (pT3_le_presAt h0 h1)

lemma theta0_le_thetaAt {z : ℝ} (h0 : 0 ≤ z) (h1 : z ≤ 47000) : theta0 ≤ thetaAt z := by
  rw [← thetaAt_zero]
  exact thetaAt_mono.monotoneOn ⟨le_rfl, by norm_num⟩ ⟨h0, h1⟩ h0

lemma thetaAt_le_thT3 {z : ℝ} (h0 : 0 ≤ z) (h1 : z ≤ 47000) : thetaAt z ≤ thT3 :=
  thetaAt_mono.monotoneOn ⟨h0, h1⟩ ⟨by norm_num, le_rfl⟩ h1

lemma thetaAt_ge {z : ℝ} (h0 : 0 ≤ z) (h1 : z ≤ 47000) : 287.06 ≤ thetaAt z :=
  le_trans theta0_ge (theta0_le_thetaAt h0 h1)

lemma thetaAt_le_thT0 {z : ℝ} (h0 : 0 ≤ z) (h1 : z ≤ 11000) : thetaAt z ≤ thT0 :=
  thetaAt_mono_L0.monotoneOn ⟨h0, h1⟩ ⟨by norm_num, le_rfl⟩ h1

lemma tempAt_bounds {z : ℝ} (h0 : 0 ≤ z) (h1 : z ≤ 47000) :
    216.65 ≤ tempAt z ∧ tempAt z ≤ 288.15 := by
  rcases le_or_lt z 11000 with h | h
  · rw [tempAt_eq_L0 h]
    exact layerT_L0_bounds h0 h
  rcases le_or_lt z 20000 with h2 | h2
  · rw [tempAt_eq_L1 h.le h2]
    norm_num
  rcases le_or_lt z 32000 with h3 | h3
  · rw [tempAt_eq_L2 h2.le h3]
    have hb := layerT_L2_bounds h2.le h3
    exact ⟨hb.1, by linarith [hb.2]⟩
  · rw [tempAt_eq_L3 h3.le]
    have hb := layerT_L3_bounds h3.le h1
    exact ⟨by linarith [hb.1], by linarith [hb.2]⟩

/-! ### Quantitative gap bounds (mean value estimates) -/

/-- Numeric bound on the pressure derivative given pressure/temperature ranges. -/
lemma presDerivBound {P T : ℝ} (hP1 : 100 < P) (hP2 : P ≤ 101325)
    (hT1 : 216.65 ≤ T) (hT2 : T ≤ 288.15) :
    -(g / R) * P / T ≤ -0.0118 ∧ -16 ≤ -(g / R) * P / T := by
  have hTpos : (0 : ℝ) < T := by linarith
  have hgr : g / R = (196133 : ℝ) / 5740000 := by norm_num [g, R]
  constructor
  · rw [div_le_iff hTpos, hgr]
    nlinarith
  · rw [le_div_iff hTpos, hgr]
    nlinarith

lemma layerP_L0_range {z : ℝ} (h0 : 0 ≤ z) (h1 : z ≤ 11000) :
    100 < layerP p0 t0 (-0.0065) 0 z ∧ layerP p0 t0 (-0.0065) 0 z ≤ 101325 := by
  rw [← presAt_eq_L0 h1]
  refine ⟨presAt_gt_100 h0 (by linarith), ?_⟩
  have := presAt_le_p0 h0 (by linarith)
  rwa [p0] at this

lemma presGapU_L0 : ∀ u ∈ Icc (0 : ℝ) 11000, ∀ v ∈ Icc (0 : ℝ) 11000, u ≤ v →
    presAt v - presAt u ≤ -0.0118 * (v - u) := by
  intro u hu v hv huv
  rw [presAt_eq_L0 hu.2, presAt_eq_L0 hv.2]
  refine gap_upper_of_deriv presDeriv_L0 ?_ u hu v hv huv
  intro z hz
  have hz' : z ∈ Icc (0 : ℝ) 11000 := Ioo_subset_Icc_self hz
  have hT := layerT_L0_bounds hz'.1 hz'.2
  have hP := layerP_L0_range hz'.1 hz'.2
  exact (presDerivBound hP.1 hP.2 hT.1 hT.2).1

lemma presGapL_L0 : ∀ u ∈ Icc (0 : ℝ) 11000, ∀ v ∈ Icc (0 : ℝ) 11000, u ≤ v →
    -16 * (v - u) ≤ presAt v - presAt u := by
  intro u hu v hv huv
  rw [presAt_eq_L0 hu.2, presAt_eq_L0 hv.2]
  refine gap_lower_of_deriv presDeriv_L0 ?_ u hu v hv huv
  intro z hz
  have hz' : z ∈ Icc (0 : ℝ) 11000 := Ioo_subset_Icc_self hz
  have hT := layerT_L0_bounds hz'.1 hz'.2
  have hP := layerP_L0_range hz'.1 hz'.2
  exact (presDerivBound hP.1 hP.2 hT.1 hT.2).2

lemma layerPiso_L1_range {z : ℝ} (h0 : 11000 ≤ z) (h1 : z ≤ 20000) :
    100 < layerPiso base1.1 216.65 11000 z ∧ layerPiso base1.1 216.65 11000 z ≤ 101325 := by
  rw [← presAt_eq_L1 h0 h1]
  refine ⟨presAt_gt_100 (by linarith) (by linarith), ?_⟩
  have := presAt_le_p0 (by linarith) (by linarith)
  rwa [p0] at this

lemma presGapU_L1 : ∀ u ∈ Icc (11000 : ℝ) 20000, ∀ v ∈ Icc (11000 : ℝ) 20000, u ≤ v →
    presAt v - presAt u ≤ -0.0118 * (v - u) := by
  intro u hu v hv huv
  rw [presAt_eq_L1 hu.1 hu.2, presAt_eq_L1 hv.1 hv.2]
  refine gap_upper_of_deriv presDeriv_L1 ?_ u hu v hv huv
  intro z hz
  have hz' : z ∈ Icc (11000 : ℝ) 20000 := Ioo_subset_Icc_self hz
  have hP := layerPiso_L1_range hz'.1 hz'.2
  exact (presDerivBound hP.1 hP.2 (by norm_num) (by norm_num)).1

lemma presGapL_L1 : ∀ u ∈ Icc (11000 : ℝ) 20000, ∀ v ∈ Icc (11000 : ℝ) 20000, u ≤ v →
    -16 * (v - u) ≤ presAt v - presAt u := by
  intro u hu v hv huv
  rw [presAt_eq_L1 hu.1 hu.2, presAt_eq_L1 hv.1 hv.2]
  refine gap_lower_of_deriv presDeriv_L1 ?_ u hu v hv huv
  intro z hz
  have hz' : z ∈ Icc (11000 : ℝ) 20000 := Ioo_subset_Icc_self hz
  have hP := layerPiso_L1_range hz'.1 hz'.2
  exact (presDerivBound hP.1 hP.2 (by norm_num) (by norm_num)).2

lemma layerP_L2_range {z : ℝ} (h0 : 20000 ≤ z) (h1 : z ≤ 32000) :
    100 < layerP base2.1 216.65 0.001 20000 z ∧
      layerP base2.1 216.65 0.001 20000 z ≤ 101325 := by
  rw [← presAt_eq_L2 h0 h1]
  refine ⟨presAt_gt_100 (by linarith) (by linarith), ?_⟩
  have := presAt_le_p0 (by linarith) (by linarith)
  rwa [p0] at this

lemma presGapU_L2 : ∀ u ∈ Icc (20000 : ℝ) 32000, ∀ v ∈ Icc (20000 : ℝ) 32000, u ≤ v →
    presAt v - presAt u ≤ -0.0118 * (v - u) := by
  intro u hu v hv huv
  rw [presAt_eq_L2 hu.1 hu.2, presAt_eq_L2 hv.1 hv.2]
  refine gap_upper_of_deriv presDeriv_L2 ?_ u hu v hv huv
  intro z hz
  have hz' : z ∈ Icc (20000 : ℝ) 32000 := Ioo_subset_Icc_self hz
  have hT := layerT_L2_bounds hz'.1 hz'.2
  have hP := layerP_L2_range hz'.1 hz'.2
  exact (presDerivBound hP.1 hP.2 hT.1 (by linarith [hT.2])).1

lemma presGapL_L2 : ∀ u ∈ Icc (20000 : ℝ) 32000, ∀ v ∈ Icc (20000 : ℝ) 32000, u ≤ v →
    -16 * (v - u) ≤ presAt v - presAt u := by
  intro u hu v hv huv
  rw [presAt_eq_L2 hu.1 hu.2, presAt_eq_L2 hv.1 hv.2]
  refine gap_lower_of_deriv presDeriv_L2 ?_ u hu v hv huv
  intro z hz
  have hz' : z ∈ Icc (20000 : ℝ) 32000 := Ioo_subset_Icc_self hz
  have hT := layerT_L2_bounds hz'.1 hz'.2
  have hP := layerP_L2_range hz'.1 hz'.2
  exact (presDerivBound hP.1 hP.2 hT.1 (by linarith [hT.2])).2

lemma layerP_L3_range {z : ℝ} (h0 : 32000 ≤ z) (h1 : z ≤ 47000) :
    100 < layerP base3.1 228.65 0.0028 32000 z ∧
      layerP base3.1 228.65 0.0028 32000 z ≤ 101325 := by
  rw [← presAt_eq_L3 h0]
  refine ⟨presAt_gt_100 (by linarith) h1, ?_⟩
  have := presAt_le_p0 (by linarith) h1
  rwa [p0] at this

lemma presGapU_L3 : ∀ u ∈ Icc (32000 : ℝ) 47000, ∀ v ∈ Icc (32000 : ℝ) 47000, u ≤ v →
    presAt v - presAt u ≤ -0.0118 * (v - u) := by
  intro u hu v hv huv
  rw [presAt_eq_L3 hu.1, presAt_eq_L3 hv.1]
  refine gap_upper_of_deriv presDeriv_L3 ?_ u hu v hv huv
  intro z hz
  have hz' : z ∈ Icc (32000 : ℝ) 47000 := Ioo_subset_Icc_self hz
  have hT := layerT_L3_bounds hz'.1 hz'.2
  have hP := layerP_L3_range hz'.1 hz'.2
  exact (presDerivBound hP.1 hP.2 (by linarith [hT.1]) (by linarith [hT.2])).1

lemma presGapL_L3 : ∀ u ∈ Icc (32000 : ℝ) 47000, ∀ v ∈ Icc (32000 : ℝ) 47000, u ≤ v →
    -16 * (v - u) ≤ presAt v - presAt u := by
  intro u hu v hv huv
  rw [presAt_eq_L3 hu.1, presAt_eq_L3 hv.1]
  refine gap_lower_of_deriv presDeriv_L3 ?_ u hu v hv huv
  intro z hz
  have hz' : z ∈ Icc (32000 : ℝ) 47000 := Ioo_subset_Icc_self hz
  have hT := layerT_L3_bounds hz'.1 hz'.2
  have hP := layerP_L3_range hz'.1 hz'.2
  exact (presDerivBound hP.1 hP.2 (by linarith [hT.1]) (by linarith [hT.2])).2

/-- Global upper gap bound: pressure falls by at least `0.0118` Pa per metre. -/
lemma presGapU : ∀ u ∈ Icc (0 : ℝ) 47000, ∀ v ∈ Icc (0 : ℝ) 47000, u ≤ v →
    presAt v - presAt u ≤ -0.0118 * (v - u) :=
  gap_upper_glue (by norm_num) (by norm_num)
    (gap_upper_glue (by norm_num) (by norm_num)
      (gap_upper_glue (by norm_num) (by norm_num) presGapU_L0 presGapU_L1) presGapU_L2)
    presGapU_L3

/-- Global lower gap bound: pressure falls by at most `16` Pa per metre. -/
lemma presGapL : ∀ u ∈ Icc (0 : ℝ) 47000, ∀ v ∈ Icc (0 : ℝ) 47000, u ≤ v →
    -16 * (v - u) ≤ presAt v - presAt u :=
  gap_lower_glue (by norm_num) (by norm_num)
    (gap_lower_glue (by norm_num) (by norm_num)
      (gap_lower_glue (by norm_num) (by norm_num) presGapL_L0 presGapL_L1) presGapL_L2)
    presGapL_L3

/-- Numeric lower bound on the potential-temperature derivative. -/
lemma thetaDerivLow {c Q : ℝ} (hc : (65392 : ℝ) / 20114000 ≤ c)
    (hQ : (287.06 : ℝ) / 288.15 ≤ Q) : 0.0032385 ≤ c * Q := by
  have h := mul_le_mul hc hQ (by norm_num) (le_trans (by norm_num) hc)
  refine le_trans ?_ h
  norm_num

lemma thetaQ_L0 {z : ℝ} (h0 : 0 ≤ z) (h1 : z ≤ 11000) :
    (287.06 : ℝ) / 288.15 ≤
        ((1.0e5 : ℝ) / layerP p0 t0 (-0.0065) 0 z) ^ (R / Cp) ∧
      ((1.0e5 : ℝ) / layerP p0 t0 (-0.0065) 0 z) ^ (R / Cp) ≤ (333 : ℝ) / 216.65 := by
  have hT := layerT_L0_bounds h0 h1
  have hTpos : (0 : ℝ) < layerT t0 (-0.0065) 0 z := by linarith [hT.1]
  have hth : thetaAt z = layerT t0 (-0.0065) 0 z *
      ((1.0e5 : ℝ) / layerP p0 t0 (-0.0065) 0 z) ^ (R / Cp) := by
    rw [thetaAt_eq_L0 h1]
    rfl
  have hQ : ((1.0e5 : ℝ) / layerP p0 t0 (-0.0065) 0 z) ^ (R / Cp) =
      thetaAt z / layerT t0 (-0.0065) 0 z := by
    rw [hth]
    field_simp
  rw [hQ]
  have hthlv : 287.06 ≤ thetaAt z := thetaAt_ge h0 (by linarith)
  have hthup : thetaAt z ≤ 333 := le_trans (thetaAt_le_thT0 h0 h1) thT0_le
  constructor
  · exact div_le_div (by linarith) hthlv hTpos (by linarith [hT.2])
  · exact div_le_div (by norm_num) hthup (by norm_num) hT.1

lemma thetaGapL_L0 : ∀ u ∈ Icc (0 : ℝ) 11000, ∀ v ∈ Icc (0 : ℝ) 11000, u ≤ v →
    0.0032385 * (v - u) ≤ thetaAt v - thetaAt u := by
  intro u hu v hv huv
  rw [thetaAt_eq_L0 hu.2, thetaAt_eq_L0 hv.2]
  refine gap_lower_of_deriv thetaDeriv_L0 ?_ u hu v hv huv
  intro z hz
  have hz' : z ∈ Icc (0 : ℝ) 11000 := Ioo_subset_Icc_self hz
  refine thetaDerivLow (by norm_num [g, Cp]) (thetaQ_L0 hz'.1 hz'.2).1

/-- Potential temperature rises by at most `0.005` K per metre inside layer 0. -/
lemma thetaGapU_L0 : ∀ u ∈ Icc (0 : ℝ) 11000, ∀ v ∈ Icc (0 : ℝ) 11000, u ≤ v →
    thetaAt v - thetaAt u ≤ 0.005 * (v - u) := by
  intro u hu v hv huv
  rw [thetaAt_eq_L0 hu.2, thetaAt_eq_L0 hv.2]
  refine gap_upper_of_deriv thetaDeriv_L0 ?_ u hu v hv huv
  intro z hz
  have hz' : z ∈ Icc (0 : ℝ) 11000 := Ioo_subset_Icc_self hz
  have hQ := (thetaQ_L0 hz'.1 hz'.2).2
  have hc : (-0.0065 + g / Cp : ℝ) = (65392 : ℝ) / 20114000 := by norm_num [g, Cp]
  rw [hc]
  have hQ0 : (0 : ℝ) ≤ ((1.0e5 : ℝ) / layerP p0 t0 (-0.0065) 0 z) ^ (R / Cp) :=
    le_of_lt (rpow_pos_of_pos (div_pos (by norm_num)
      (lt_of_lt_of_le (by norm_num) (le_of_lt (layerP_L0_range hz'.1 hz'.2).1))) _)
  nlinarith

lemma thetaQ_L1 {z : ℝ} (h0 : 11000 ≤ z) (h1 : z ≤ 20000) :
    (287.06 : ℝ) / 288.15 ≤
      ((1.0e5 : ℝ) / layerPiso base1.1 216.65 11000 z) ^ (R / Cp) := by
  have hth : thetaAt z = 216.65 *
      ((1.0e5 : ℝ) / layerPiso base1.1 216.65 11000 z) ^ (R / Cp) := by
    rw [thetaAt_eq_L1 h0 h1]
    rfl
  have hQ : ((1.0e5 : ℝ) / layerPiso base1.1 216.65 11000 z) ^ (R / Cp) =
      thetaAt z / 216.65 := by
    rw [hth]
    field_simp
  rw [hQ]
  have hthlv : 287.06 ≤ thetaAt z := thetaAt_ge (by linarith) (by linarith)
  rw [div_le_div_iff (by norm_num) (by norm_num)]
  nlinarith

lemma thetaGapL_L1 : ∀ u ∈ Icc (11000 : ℝ) 20000, ∀ v ∈ Icc (11000 : ℝ) 20000, u ≤ v →
    0.0032385 * (v - u) ≤ thetaAt v - thetaAt u := by
  intro u hu v hv huv
  rw [thetaAt_eq_L1 hu.1 hu.2, thetaAt_eq_L1 hv.1 hv.2]
  refine gap_lower_of_deriv thetaDeriv_L1 ?_ u hu v hv huv
  intro z hz
  have hz' : z ∈ Icc (11000 : ℝ) 20000 := Ioo_subset_Icc_self hz
  refine thetaDerivLow (by norm_num [g, Cp]) (thetaQ_L1 hz'.1 hz'.2)

lemma thetaQ_L2 {z : ℝ} (h0 : 20000 ≤ z) (h1 : z ≤ 32000) :
    (287.06 : ℝ) / 288.15 ≤
      ((1.0e5 : ℝ) / layerP base2.1 216.65 0.001 20000 z) ^ (R / Cp) := by
  have hT := layerT_L2_bounds h0 h1
  have hTpos : (0 : ℝ) < layerT 216.65 0.001 20000 z := by linarith [hT.1]
  have hth : thetaAt z = layerT 216.65 0.001 20000 z *
      ((1.0e5 : ℝ) / layerP base2.1 216.65 0.001 20000 z) ^ (R / Cp) := by
    rw [thetaAt_eq_L2 h0 h1]
    rfl
  have hQ : ((1.0e5 : ℝ) / layerP base2.1 216.65 0.001 20000 z) ^ (R / Cp) =
      thetaAt z / layerT 216.65 0.001 20000 z := by
    rw [hth]
    field_simp
  rw [hQ]
  have hthlv : 287.06 ≤ thetaAt z := thetaAt_ge (by linarith) (by linarith)
  exact div_le_div (by linarith) hthlv hTpos (by linarith [hT.2])

lemma thetaGapL_L2 : ∀ u ∈ Icc (20000 : ℝ) 32000, ∀ v ∈ Icc (20000 : ℝ) 32000, u ≤ v →
    0.0032385 * (v - u) ≤ thetaAt v - thetaAt u := by
  intro u hu v hv huv
  rw [thetaAt_eq_L2 hu.1 hu.2, thetaAt_eq_L2 hv.1 hv.2]
  refine gap_lower_of_deriv thetaDeriv_L2 ?_ u hu v hv huv
  intro z hz
  have hz' : z ∈ Icc (20000 : ℝ) 32000 := Ioo_subset_Icc_self hz
  refine thetaDerivLow (by norm_num [g, Cp]) (thetaQ_L2 hz'.1 hz'.2)

lemma thetaQ_L3 {z : ℝ} (h0 : 32000 ≤ z) (h1 : z ≤ 47000) :
    (287.06 : ℝ) / 288.15 ≤
      ((1.0e5 : ℝ) / layerP base3.1 228.65 0.0028 32000 z) ^ (R / Cp) := by
  have hT := layerT_L3_bounds h0 h1
  have hTpos : (0 : ℝ) < layerT 228.65 0.0028 32000 z := by linarith [hT.1]
  have hth : thetaAt z = layerT 228.65 0.0028 32000 z *
      ((1.0e5 : ℝ) / layerP base3.1 228.65 0.0028 32000 z) ^ (R / Cp) := by
    rw [thetaAt_eq_L3 h0]
    rfl
  have hQ : ((1.0e5 : ℝ) / layerP base3.1 228.65 0.0028 32000 z) ^ (R / Cp) =
      thetaAt z / layerT 228.65 0.0028 32000 z := by
    rw [hth]
    field_simp
  rw [hQ]
  have hthlv : 287.06 ≤ thetaAt z := thetaAt_ge (by linarith) h1
  exact div_le_div (by linarith) hthlv hTpos (by linarith [hT.2])

lemma thetaGapL_L3 : ∀ u ∈ Icc (32000 : ℝ) 47000, ∀ v ∈ Icc (32000 : ℝ) 47000, u ≤ v →
    0.0032385 * (v - u) ≤ thetaAt v - thetaAt u := by
  intro u hu v hv huv
  rw [thetaAt_eq_L3 hu.1, thetaAt_eq_L3 hv.1]
  refine gap_lower_of_deriv thetaDeriv_L3 ?_ u hu v hv huv
  intro z hz
  have hz' : z ∈ Icc (32000 : ℝ) 47000 := Ioo_subset_Icc_self hz
  refine thetaDerivLow (by norm_num [g, Cp]) (thetaQ_L3 hz'.1 hz'.2)

/-- Global lower gap bound: potential temperature rises by at least `0.0032385` K/m. -/
lemma thetaGapL : ∀ u ∈ Icc (0 : ℝ) 47000, ∀ v ∈ Icc (0 : ℝ) 47000, u ≤ v →
    0.0032385 * (v - u) ≤ thetaAt v - thetaAt u :=
  gap_lower_glue (by norm_num) (by norm_num)
    (gap_lower_glue (by norm_num) (by norm_num)
      (gap_lower_glue (by norm_num) (by norm_num) thetaGapL_L0 thetaGapL_L1) thetaGapL_L2)
    thetaGapL_L3

/-! ### The bisection loops -/

/-- Midpoint of a bracket. -/
def midP (b : ℝ × ℝ) : ℝ := (b.1 + b.2) / 2

/-- Loop invariant of the `fromPa` bisection: the bracket stays inside the initial
layer `[lo, hi]` and the target pressure stays bracketed. -/
def PaInv (pres lo hi : ℝ) (b : ℝ × ℝ) : Prop :=
  lo ≤ b.1 ∧ b.1 < b.2 ∧ b.2 ≤ hi ∧ presAt b.2 ≤ pres ∧ pres ≤ presAt b.1

/-- Loop invariant of the `fromTheta` bisection. -/
def ThInv (thetaIn lo hi : ℝ) (b : ℝ × ℝ) : Prop :=
  lo ≤ b.1 ∧ b.1 < b.2 ∧ b.2 ≤ hi ∧ thetaAt b.1 ≤ thetaIn ∧ thetaIn ≤ thetaAt b.2

lemma fromMeters_in {alt : ℝ} (h0 : 0 ≤ alt) (h1 : alt ≤ 47000) :
    fromMeters alt = .ok (mkRes alt) := by
  rw [fromMeters, if_neg]
  · rfl
  · push_neg
    exact ⟨h0, h1⟩

lemma fromMeters_out {alt : ℝ} (h : alt < 0 ∨ 47000 < alt) :
    fromMeters alt = .error .altRange := by
  rw [fromMeters, if_pos h]

lemma paLoop_zero (pres h0 h1 mid : ℝ) (r : Result) :
    paLoop pres 0 h0 h1 mid r = .ok ((mid, r.2.1, r.2.2.1, r.2.2.2), 0) := rfl

lemma paLoop_succ (pres : ℝ) (i : ℕ) (h0 h1 mid : ℝ) (r : Result) :
    paLoop pres (i + 1) h0 h1 mid r =
      if 0.05 < |r.1 - pres| then
        (fromMeters (((paStep pres r.1 h0 h1 mid).1 + (paStep pres r.1 h0 h1 mid).2) / 2)).bind
          fun r' =>
            paLoop pres i (paStep pres r.1 h0 h1 mid).1 (paStep pres r.1 h0 h1 mid).2
              (((paStep pres r.1 h0 h1 mid).1 + (paStep pres r.1 h0 h1 mid).2) / 2) r'
      else .ok ((mid, r.2.1, r.2.2.1, r.2.2.2), i + 1) := rfl

lemma thetaLoop_zero (thetaIn h0 h1 mid : ℝ) (r : Result) :
    thetaLoop thetaIn 0 h0 h1 mid r = .ok ((r.1, mid, r.2.1, r.2.2.2), 0) := rfl

lemma thetaLoop_succ (thetaIn : ℝ) (i : ℕ) (h0 h1 mid : ℝ) (r : Result) :
    thetaLoop thetaIn (i + 1) h0 h1 mid r =
      if 0.05 < |r.2.2.1 - thetaIn| then
        (fromMeters
            (((thetaStep thetaIn r.2.2.1 h0 h1 mid).1 +
                (thetaStep thetaIn r.2.2.1 h0 h1 mid).2) / 2)).bind
          fun r' =>
            thetaLoop thetaIn i (thetaStep thetaIn r.2.2.1 h0 h1 mid).1
              (thetaStep thetaIn r.2.2.1 h0 h1 mid).2
              (((thetaStep thetaIn r.2.2.1 h0 h1 mid).1 +
                  (thetaStep thetaIn r.2.2.1 h0 h1 mid).2) / 2) r'
      else .ok ((r.1, mid, r.2.1, r.2.2.2), i + 1) := rfl

lemma paNext_inv {pres lo hi : ℝ} {b : ℝ × ℝ} (h : PaInv pres lo hi b) :
    PaInv pres lo hi (paNext pres b) := by
  obtain ⟨h1, h2, h3, h4, h5⟩ := h
  have hm1 : b.1 < (b.1 + b.2) / 2 := by linarith
  have hm2 : (b.1 + b.2) / 2 < b.2 := by linarith
  rw [paNext, paStep]
  split_ifs with hc
  · exact ⟨h1, hm1, le_trans hm2.le h3, le_of_lt hc, h5⟩
  · exact ⟨le_trans h1 hm1.le, hm2, h3, h4, not_lt.mp hc⟩

lemma thetaNext_inv {thetaIn lo hi : ℝ} {b : ℝ × ℝ} (h : ThInv thetaIn lo hi b) :
    ThInv thetaIn lo hi (thetaNext thetaIn b) := by
  obtain ⟨h1, h2, h3, h4, h5⟩ := h
  have hm1 : b.1 < (b.1 + b.2) / 2 := by linarith
  have hm2 : (b.1 + b.2) / 2 < b.2 := by linarith
  rw [thetaNext, thetaStep]
  split_ifs with hc
  · exact ⟨h1, hm1, le_trans hm2.le h3, h4, le_of_lt hc⟩
  · exact ⟨le_trans h1 hm1.le, hm2, h3, not_lt.mp hc, h5⟩

lemma paIter_inv {pres lo hi : ℝ} {b : ℝ × ℝ} (h : PaInv pres lo hi b) (n : ℕ) :
    PaInv pres lo hi (paIter pres n b) := by
  induction n with
  | zero => exact h
  | succ n ih =>
    rw [paIter, Function.iterate_succ_apply']
    exact paNext_inv ih

lemma thetaIter_inv {thetaIn lo hi : ℝ} {b : ℝ × ℝ} (h : ThInv thetaIn lo hi b) (n : ℕ) :
    ThInv thetaIn lo hi (thetaIter thetaIn n b) := by
  induction n with
  | zero => exact h
  | succ n ih =>
    rw [thetaIter, Function.iterate_succ_apply']
    exact thetaNext_inv ih

lemma paNext_width (pres : ℝ) (b : ℝ × ℝ) :
    (paNext pres b).2 - (paNext pres b).1 = (b.2 - b.1) / 2 := by
  rw [paNext, paStep]
  split_ifs <;> simp <;> ring

lemma thetaNext_width (thetaIn : ℝ) (b : ℝ × ℝ) :
    (thetaNext thetaIn b).2 - (thetaNext thetaIn b).1 = (b.2 - b.1) / 2 := by
  rw [thetaNext, thetaStep]
  split_ifs <;> simp <;> ring

lemma paIter_width (pres : ℝ) (b : ℝ × ℝ) (n : ℕ) :
    (paIter pres n b).2 - (paIter pres n b).1 = (b.2 - b.1) / 2 ^ n := by
  induction n with
  | zero => simp [paIter]
  | succ n ih =>
    rw [paIter, Function.iterate_succ_apply', ← paIter, paNext_width, ih]
    ring

lemma thetaIter_width (thetaIn : ℝ) (b : ℝ × ℝ) (n : ℕ) :
    (thetaIter thetaIn n b).2 - (thetaIter thetaIn n b).1 = (b.2 - b.1) / 2 ^ n := by
  induction n with
  | zero => simp [thetaIter]
  | succ n ih =>
    rw [thetaIter, Function.iterate_succ_apply', ← thetaIter, thetaNext_width, ih]
    ring

/-- The pressure residual at the current midpoint is controlled by the bracket width. -/
lemma paInv_residual {pres lo hi : ℝ} {b : ℝ × ℝ} (hlo : 0 ≤ lo) (hhi : hi ≤ 47000)
    (h : PaInv pres lo hi b) : |presAt (midP b) - pres| ≤ 16 * (b.2 - b.1) := by
  obtain ⟨h1, h2, h3, h4, h5⟩ := h
  have hb1 : b.1 ∈ Icc (0 : ℝ) 47000 := ⟨le_trans hlo h1, by linarith⟩
  have hb2 : b.2 ∈ Icc (0 : ℝ) 47000 := ⟨by linarith [hb1.1], le_trans h3 hhi⟩
  have hm : midP b ∈ Icc (0 : ℝ) 47000 := by
    constructor
    · rw [midP]; linarith [hb1.1, hb2.1]
    · rw [midP]; linarith [hb1.2, hb2.2]
  have hmono1 : presAt (midP b) ≤ presAt b.1 :=
    presAt_anti.antitoneOn hb1 hm (by rw [midP]; linarith)
  have hmono2 : presAt b.2 ≤ presAt (midP b) :=
    presAt_anti.antitoneOn hm hb2 (by rw [midP]; linarith)
  have hgap := presGapL b.1 hb1 b.2 hb2 h2.le
  rw [abs_le]
  constructor <;> nlinarith

/-- The theta residual at the current midpoint is controlled by the target interval. -/
lemma thInv_residual_facts {thetaIn lo hi : ℝ} {b : ℝ × ℝ} (hlo : 0 ≤ lo)
    (hhi : hi ≤ 47000) (h : ThInv thetaIn lo hi b) :
    thetaAt b.1 ≤ thetaAt (midP b) ∧ thetaAt (midP b) ≤ thetaAt b.2 := by
  obtain ⟨h1, h2, h3, h4, h5⟩ := h
  have hb1 : b.1 ∈ Icc (0 : ℝ) 47000 := ⟨le_trans hlo h1, by linarith⟩
  have hb2 : b.2 ∈ Icc (0 : ℝ) 47000 := ⟨by linarith [hb1.1], le_trans h3 hhi⟩
  have hm : midP b ∈ Icc (0 : ℝ) 47000 := by
    constructor
    · rw [midP]; linarith [hb1.1, hb2.1]
    · rw [midP]; linarith [hb1.2, hb2.2]
  exact ⟨thetaAt_mono.monotoneOn hb1 hm (by rw [midP]; linarith),
    thetaAt_mono.monotoneOn hm hb2 (by rw [midP]; linarith)⟩

lemma paInv_mid_range {pres lo hi : ℝ} {b : ℝ × ℝ} (hlo : 0 ≤ lo) (hhi : hi ≤ 47000)
    (h : PaInv pres lo hi b) : 0 ≤ midP b ∧ midP b ≤ 47000 := by
  obtain ⟨h1, h2, h3, _, _⟩ := h
  constructor
  · rw [midP]; nlinarith
  · rw [midP]; nlinarith

lemma thInv_mid_range {thetaIn lo hi : ℝ} {b : ℝ × ℝ} (hlo : 0 ≤ lo) (hhi : hi ≤ 47000)
    (h : ThInv thetaIn lo hi b) : 0 ≤ midP b ∧ midP b ≤ 47000 := by
  obtain ⟨h1, h2, h3, _, _⟩ := h
  constructor
  · rw [midP]; nlinarith
  · rw [midP]; nlinarith

/-- The `fromPa` loop computes the midpoint of the `k`-th iterated bracket, where
`k` is the first index at which the residual drops to `0.05` Pa (or the fuel runs
out); the returned counter is the fuel remaining. -/
lemma paLoop_eq_iter {pres lo hi : ℝ} (hlo : 0 ≤ lo) (hhi : hi ≤ 47000) :
    ∀ (n : ℕ) (b : ℝ × ℝ), PaInv pres lo hi b →
      ∃ k : ℕ, k ≤ n ∧
        paLoop pres n b.1 b.2 (midP b) (mkRes (midP b)) =
          .ok ((midP (paIter pres k b), tempAt (midP (paIter pres k b)),
            thetaAt (midP (paIter pres k b)), densAt (midP (paIter pres k b))), n - k) ∧
        (∀ j < k, 0.05 < |presAt (midP (paIter pres j b)) - pres|) ∧
        (|presAt (midP (paIter pres k b)) - pres| ≤ 0.05 ∨ k = n) := by
  intro n
  induction n with
  | zero =>
    intro b _
    refine ⟨0, le_rfl, ?_, ?_, Or.inr rfl⟩
    · rw [paLoop_zero]
      rfl
    · intro j hj
      exact absurd hj (Nat.not_lt_zero j)
  | succ n ih =>
    intro b hb
    by_cases hg : 0.05 < |presAt (midP b) - pres|
    · have hb' := paNext_inv hb
      have hmid := paInv_mid_range hlo hhi hb'
      obtain ⟨k, hk, heq, hmin, hstop⟩ := ih (paNext pres b) hb'
      have hg' : 0.05 < |(mkRes (midP b)).1 - pres| := hg
      refine ⟨k + 1, by omega, ?_, ?_, ?_⟩
      · rw [paLoop_succ, if_pos hg']
        have hshow : (fromMeters
            (((paStep pres (mkRes (midP b)).1 b.1 b.2 (midP b)).1 +
                (paStep pres (mkRes (midP b)).1 b.1 b.2 (midP b)).2) / 2)).bind
            (fun r' => paLoop pres n (paStep pres (mkRes (midP b)).1 b.1 b.2 (midP b)).1
              (paStep pres (mkRes (midP b)).1 b.1 b.2 (midP b)).2
              (((paStep pres (mkRes (midP b)).1 b.1 b.2 (midP b)).1 +
                  (paStep pres (mkRes (midP b)).1 b.1 b.2 (midP b)).2) / 2) r') =
            (fromMeters (midP (paNext pres b))).bind
            (fun r' => paLoop pres n (paNext pres b).1 (paNext pres b).2
              (midP (paNext pres b)) r') := rfl
        rw [hshow, fromMeters_in hmid.1 hmid.2]
        show paLoop pres n (paNext pres b).1 (paNext pres b).2 (midP (paNext pres b))
            (mkRes (midP (paNext pres b))) = _
        rw [heq]
        have hiter : paIter pres k (paNext pres b) = paIter pres (k + 1) b := by
          rw [paIter, paIter, Function.iterate_succ_apply]
        rw [hiter]
        have hnk : n + 1 - (k + 1) = n - k := by omega
        rw [hnk]
      · intro j hj
        cases j with
        | zero =>
          have : paIter pres 0 b = b := rfl
          rw [this]
          exact hg
        | succ j =>
          have hiter : paIter pres (j + 1) b = paIter pres j (paNext pres b) := by
            rw [paIter, paIter, Function.iterate_succ_apply]
          rw [hiter]
          exact hmin j (by omega)
      · have hiter : paIter pres (k + 1) b = paIter pres k (paNext pres b) := by
          rw [paIter, paIter, Function.iterate_succ_apply]
        rcases hstop with h | h
        · exact Or.inl (by rw [hiter]; exact h)
        · exact Or.inr (by omega)
    · have hg' : ¬ 0.05 < |(mkRes (midP b)).1 - pres| := hg
      refine ⟨0, Nat.zero_le _, ?_, ?_, Or.inl (not_lt.mp hg)⟩
      · rw [paLoop_succ, if_neg hg']
        rfl
      · intro j hj
        exact absurd hj (Nat.not_lt_zero j)

/-- Mirror image of `paLoop_eq_iter` for the `fromTheta` loop. -/
lemma thetaLoop_eq_iter {thetaIn lo hi : ℝ} (hlo : 0 ≤ lo) (hhi : hi ≤ 47000) :
    ∀ (n : ℕ) (b : ℝ × ℝ), ThInv thetaIn lo hi b →
      ∃ k : ℕ, k ≤ n ∧
        thetaLoop thetaIn n b.1 b.2 (midP b) (mkRes (midP b)) =
          .ok ((presAt (midP (thetaIter thetaIn k b)), midP (thetaIter thetaIn k b),
            tempAt (midP (thetaIter thetaIn k b)),
            densAt (midP (thetaIter thetaIn k b))), n - k) ∧
        (∀ j < k, 0.05 < |thetaAt (midP (thetaIter thetaIn j b)) - thetaIn|) ∧
        (|thetaAt (midP (thetaIter thetaIn k b)) - thetaIn| ≤ 0.05 ∨ k = n) := by
  intro n
  induction n with
  | zero =>
    intro b _
    refine ⟨0, le_rfl, ?_, ?_, Or.inr rfl⟩
    · rw [thetaLoop_zero]
      rfl
    · intro j hj
      exact absurd hj (Nat.not_lt_zero j)
  | succ n ih =>
    intro b hb
    by_cases hg : 0.05 < |thetaAt (midP b) - thetaIn|
    · have hb' := thetaNext_inv hb
      have hmid := thInv_mid_range hlo hhi hb'
      obtain ⟨k, hk, heq, hmin, hstop⟩ := ih (thetaNext thetaIn b) hb'
      have hg' : 0.05 < |(mkRes (midP b)).2.2.1 - thetaIn| := hg
      refine ⟨k + 1, by omega, ?_, ?_, ?_⟩
      · rw [thetaLoop_succ, if_pos hg']
        have hshow : (fromMeters
            (((thetaStep thetaIn (mkRes (midP b)).2.2.1 b.1 b.2 (midP b)).1 +
                (thetaStep thetaIn (mkRes (midP b)).2.2.1 b.1 b.2 (midP b)).2) / 2)).bind
            (fun r' => thetaLoop thetaIn n
              (thetaStep thetaIn (mkRes (midP b)).2.2.1 b.1 b.2 (midP b)).1
              (thetaStep thetaIn (mkRes (midP b)).2.2.1 b.1 b.2 (midP b)).2
              (((thetaStep thetaIn (mkRes (midP b)).2.2.1 b.1 b.2 (midP b)).1 +
                  (thetaStep thetaIn (mkRes (midP b)).2.2.1 b.1 b.2 (midP b)).2) / 2) r') =
            (fromMeters (midP (thetaNext thetaIn b))).bind
            (fun r' => thetaLoop thetaIn n (thetaNext thetaIn b).1 (thetaNext thetaIn b).2
              (midP (thetaNext thetaIn b)) r') := rfl
        rw [hshow, fromMeters_in hmid.1 hmid.2]
        show thetaLoop thetaIn n (thetaNext thetaIn b).1 (thetaNext thetaIn b).2
            (midP (thetaNext thetaIn b)) (mkRes (midP (thetaNext thetaIn b))) = _
        rw [heq]
        have hiter : thetaIter thetaIn k (thetaNext thetaIn b) =
            thetaIter thetaIn (k + 1) b := by
          rw [thetaIter, thetaIter, Function.iterate_succ_apply]
        rw [hiter]
        have hnk : n + 1 - (k + 1) = n - k := by omega
        rw [hnk]
      · intro j hj
        cases j with
        | zero =>
          have : thetaIter thetaIn 0 b = b := rfl
          rw [this]
          exact hg
        | succ j =>
          have hiter : thetaIter thetaIn (j + 1) b = thetaIter thetaIn j (thetaNext thetaIn b) := by
            rw [thetaIter, thetaIter, Function.iterate_succ_apply]
          rw [hiter]
          exact hmin j (by omega)
      · have hiter : thetaIter thetaIn (k + 1) b = thetaIter thetaIn k (thetaNext thetaIn b) := by
          rw [thetaIter, thetaIter, Function.iterate_succ_apply]
        rcases hstop with h | h
        · exact Or.inl (by rw [hiter]; exact h)
        · exact Or.inr (by omega)
    · have hg' : ¬ 0.05 < |(mkRes (midP b)).2.2.1 - thetaIn| := hg
      refine ⟨0, Nat.zero_le _, ?_, ?_, Or.inl (not_lt.mp hg)⟩
      · rw [thetaLoop_succ, if_neg hg']
        rfl
      · intro j hj
        exact absurd hj (Nat.not_lt_zero j)

/-- After 23 halvings of a ≤ 15000 m bracket, the pressure residual is below the
stopping tolerance. -/
lemma paIter_residual_le {pres lo hi : ℝ} {b : ℝ × ℝ} (hlo : 0 ≤ lo) (hhi : hi ≤ 47000)
    (hb : PaInv pres lo hi b) (hw : b.2 - b.1 ≤ 15000) :
    |presAt (midP (paIter pres 23 b)) - pres| ≤ 0.05 := by
  have hinv := paIter_inv hb 23
  have hres := paInv_residual hlo hhi hinv
  have hwidth := paIter_width pres b 23
  rw [hwidth] at hres
  refine le_trans hres ?_
  have h2 : (2 : ℝ) ^ (23 : ℕ) = 8388608 := by norm_num
  rw [h2]
  linarith

lemma paBracket_spec {pres : ℝ} (h1 : pT3 < pres) (h2 : pres ≤ p0) :
    ∃ lo hi : ℝ, paBracket pres = some (lo, hi) ∧ 0 ≤ lo ∧ hi ≤ 47000 ∧
      hi - lo ≤ 15000 ∧ PaInv pres lo hi (lo, hi) := by
  rw [paBracket]
  by_cases c0 : pres > pT0
  · rw [if_pos c0]
    refine ⟨0, 11000, rfl, le_rfl, by norm_num, by norm_num,
      le_rfl, by norm_num, le_rfl, c0.le, ?_⟩
    rw [show ((0 : ℝ), (11000 : ℝ)).1 = (0 : ℝ) from rfl, presAt_zero]
    exact h2
  · rw [if_neg c0]
    by_cases c1 : pres > pT1
    · rw [if_pos c1]
      exact ⟨11000, 20000, rfl, by norm_num, by norm_num, by norm_num,
        le_rfl, by norm_num, le_rfl, c1.le, not_lt.mp c0⟩
    · rw [if_neg c1]
      by_cases c2 : pres > pT2
      · rw [if_pos c2]
        exact ⟨20000, 32000, rfl, by norm_num, by norm_num, by norm_num,
          le_rfl, by norm_num, le_rfl, c2.le, not_lt.mp c1⟩
      · rw [if_neg c2, if_pos h1]
        exact ⟨32000, 47000, rfl, by norm_num, by norm_num, by norm_num,
          le_rfl, by norm_num, le_rfl, h1.le, not_lt.mp c2⟩

lemma thetaBracket_spec {thetaIn : ℝ} (h1 : theta0 ≤ thetaIn) (h2 : thetaIn < thT3) :
    ∃ lo hi : ℝ, thetaBracket thetaIn = some (lo, hi) ∧ 0 ≤ lo ∧ hi ≤ 47000 ∧
      hi - lo ≤ 15000 ∧ ThInv thetaIn lo hi (lo, hi) := by
  rw [thetaBracket]
  by_cases c0 : thetaIn < thT0
  · rw [if_pos c0]
    refine ⟨0, 11000, rfl, le_rfl, by norm_num, by norm_num,
      le_rfl, by norm_num, le_rfl, ?_, c0.le⟩
    rw [show ((0 : ℝ), (11000 : ℝ)).1 = (0 : ℝ) from rfl, thetaAt_zero]
    exact h1
  · rw [if_neg c0]
    by_cases c1 : thetaIn < thT1
    · rw [if_pos c1]
      exact ⟨11000, 20000, rfl, by norm_num, by norm_num, by norm_num,
        le_rfl, by norm_num, le_rfl, not_lt.mp c0, c1.le⟩
    · rw [if_neg c1]
      by_cases c2 : thetaIn < thT2
      · rw [if_pos c2]
        exact ⟨20000, 32000, rfl, by norm_num, by norm_num, by norm_num,
          le_rfl, by norm_num, le_rfl, not_lt.mp c1, c2.le⟩
      · rw [if_neg c2, if_pos h2]
        exact ⟨32000, 47000, rfl, by norm_num, by norm_num, by norm_num,
          le_rfl, by norm_num, le_rfl, not_lt.mp c2, h2.le⟩

/-- Full behaviour of `fromPa` on the open-below valid range: the bracket scan
finds a layer, the bisection stops at the first iterate whose residual is within
`0.05` Pa, this happens within 23 halvings (fuel 27 of 50 is left over), and the
returned tuple is the forward model evaluated at the final midpoint. -/
lemma fromPa_spec {pres : ℝ} (h1 : pT3 < pres) (h2 : pres ≤ p0) :
    ∃ (lo hi : ℝ) (k : ℕ), paBracket pres = some (lo, hi) ∧ k ≤ 23 ∧ 0 ≤ lo ∧
      hi ≤ 47000 ∧ PaInv pres lo hi (lo, hi) ∧ hi - lo ≤ 15000 ∧
      paLoop pres 50 lo hi ((lo + hi) / 2) (mkRes ((lo + hi) / 2)) =
        .ok ((midP (paIter pres k (lo, hi)), tempAt (midP (paIter pres k (lo, hi))),
          thetaAt (midP (paIter pres k (lo, hi))),
          densAt (midP (paIter pres k (lo, hi)))), 50 - k) ∧
      (∀ j < k, 0.05 < |presAt (midP (paIter pres j (lo, hi))) - pres|) ∧
      |presAt (midP (paIter pres k (lo, hi))) - pres| ≤ 0.05 ∧
      fromPa pres = .ok (midP (paIter pres k (lo, hi)),
        tempAt (midP (paIter pres k (lo, hi))), thetaAt (midP (paIter pres k (lo, hi))),
        densAt (midP (paIter pres k (lo, hi)))) := by
  obtain ⟨lo, hi, hbr, hlo, hhi, hw, hinv⟩ := paBracket_spec h1 h2
  obtain ⟨k, hk50, heq, hmin, hstop⟩ := paLoop_eq_iter hlo hhi 50 (lo, hi) hinv
  have hw' : ((lo, hi) : ℝ × ℝ).2 - ((lo, hi) : ℝ × ℝ).1 ≤ 15000 := hw
  have hk23 : k ≤ 23 := by
    by_contra hgt
    push_neg at hgt
    have hm := hmin 23 (by omega)
    have hres := paIter_residual_le hlo hhi hinv hw'
    linarith
  have hstop' : |presAt (midP (paIter pres k (lo, hi))) - pres| ≤ 0.05 := by
    rcases hstop with h | h
    · exact h
    · exfalso
      omega
  have heq' : paLoop pres 50 lo hi ((lo + hi) / 2) (mkRes ((lo + hi) / 2)) =
      .ok ((midP (paIter pres k (lo, hi)), tempAt (midP (paIter pres k (lo, hi))),
        thetaAt (midP (paIter pres k (lo, hi))),
        densAt (midP (paIter pres k (lo, hi)))), 50 - k) := heq
  refine ⟨lo, hi, k, hbr, hk23, hlo, hhi, hinv, hw, heq', hmin, hstop', ?_⟩
  have hmlo : 0 ≤ (lo + hi) / 2 := by
    have := hinv.2.1
    simp only at this
    nlinarith [hinv.1, hinv.2.2.1]
  have hmhi : (lo + hi) / 2 ≤ 47000 := by
    nlinarith [hinv.1, hinv.2.1, hinv.2.2.1]
  have hfm := fromMeters_in hmlo hmhi
  rw [fromPa, if_neg (by push_neg; exact ⟨h2, h1.le⟩), hbr]
  show (fromMeters ((lo + hi) / 2)).bind
      (fun r => (paLoop pres 50 lo hi ((lo + hi) / 2) r).map Prod.fst) = _
  rw [hfm]
  show (paLoop pres 50 lo hi ((lo + hi) / 2) (mkRes ((lo + hi) / 2))).map Prod.fst = _
  rw [heq']
  rfl

/-- Full behaviour of `fromTheta` on the in-range inputs `theta0 ≤ θ < theta[3]`:
the bracket scan finds a layer, the loop stops at the first iterate within
`0.05` K or when the fuel is exhausted, and the returned tuple is the forward
model at the final midpoint (in the order `p, mid, t, d`). -/
lemma fromTheta_spec {thetaIn : ℝ} (h1 : theta0 ≤ thetaIn) (h2 : thetaIn < thT3) :
    ∃ (lo hi : ℝ) (k : ℕ), thetaBracket thetaIn = some (lo, hi) ∧ k ≤ 50 ∧ 0 ≤ lo ∧
      hi ≤ 47000 ∧ ThInv thetaIn lo hi (lo, hi) ∧ hi - lo ≤ 15000 ∧
      thetaLoop thetaIn 50 lo hi ((lo + hi) / 2) (mkRes ((lo + hi) / 2)) =
        .ok ((presAt (midP (thetaIter thetaIn k (lo, hi))),
          midP (thetaIter thetaIn k (lo, hi)),
          tempAt (midP (thetaIter thetaIn k (lo, hi))),
          densAt (midP (thetaIter thetaIn k (lo, hi)))), 50 - k) ∧
      (∀ j < k, 0.05 < |thetaAt (midP (thetaIter thetaIn j (lo, hi))) - thetaIn|) ∧
      (|thetaAt (midP (thetaIter thetaIn k (lo, hi))) - thetaIn| ≤ 0.05 ∨ k = 50) ∧
      fromTheta thetaIn = .ok (presAt (midP (thetaIter thetaIn k (lo, hi))),
        midP (thetaIter thetaIn k (lo, hi)), tempAt (midP (thetaIter thetaIn k (lo, hi))),
        densAt (midP (thetaIter thetaIn k (lo, hi)))) := by
  obtain ⟨lo, hi, hbr, hlo, hhi, hw, hinv⟩ := thetaBracket_spec h1 h2
  obtain ⟨k, hk50, heq, hmin, hstop⟩ := thetaLoop_eq_iter hlo hhi 50 (lo, hi) hinv
  have heq' : thetaLoop thetaIn 50 lo hi ((lo + hi) / 2) (mkRes ((lo + hi) / 2)) =
      .ok ((presAt (midP (thetaIter thetaIn k (lo, hi))),
        midP (thetaIter thetaIn k (lo, hi)),
        tempAt (midP (thetaIter thetaIn k (lo, hi))),
        densAt (midP (thetaIter thetaIn k (lo, hi)))), 50 - k) := heq
  refine ⟨lo, hi, k, hbr, hk50, hlo, hhi, hinv, hw, heq', hmin, hstop, ?_⟩
  have hmlo : 0 ≤ (lo + hi) / 2 := by
    nlinarith [hinv.1, hinv.2.1, hinv.2.2.1]
  have hmhi : (lo + hi) / 2 ≤ 47000 := by
    nlinarith [hinv.1, hinv.2.1, hinv.2.2.1]
  have hfm := fromMeters_in hmlo hmhi
  rw [fromTheta, if_neg (by push_neg; exact ⟨h1, h2.le⟩), hbr]
  show (fromMeters ((lo + hi) / 2)).bind
      (fun r => (thetaLoop thetaIn 50 lo hi ((lo + hi) / 2) r).map Prod.fst) = _
  rw [hfm]
  show (thetaLoop thetaIn 50 lo hi ((lo + hi) / 2) (mkRes ((lo + hi) / 2))).map Prod.fst = _
  rw [heq']
  rfl

/-! ### Table ordering and error paths -/

lemma pT3_lt_pT2 : pT3 < pT2 :=
  presAt_anti ⟨by norm_num, by norm_num⟩ ⟨by norm_num, by norm_num⟩ (by norm_num)

lemma pT2_lt_pT1 : pT2 < pT1 :=
  presAt_anti ⟨by norm_num, by norm_num⟩ ⟨by norm_num, by norm_num⟩ (by norm_num)

lemma pT1_lt_pT0 : pT1 < pT0 :=
  presAt_anti ⟨by norm_num, by norm_num⟩ ⟨by norm_num, by norm_num⟩ (by norm_num)

lemma pT0_lt_p0 : pT0 < p0 := by
  rw [← presAt_zero]
  exact presAt_anti ⟨le_rfl, by norm_num⟩ ⟨by norm_num, by norm_num⟩ (by norm_num)

lemma theta0_lt_thT0 : theta0 < thT0 := by
  rw [← thetaAt_zero]
  exact thetaAt_mono ⟨le_rfl, by norm_num⟩ ⟨by norm_num, by norm_num⟩ (by norm_num)

lemma thT0_lt_thT1 : thT0 < thT1 :=
  thetaAt_mono ⟨by norm_num, by norm_num⟩ ⟨by norm_num, by norm_num⟩ (by norm_num)

lemma thT1_lt_thT2 : thT1 < thT2 :=
  thetaAt_mono ⟨by norm_num, by norm_num⟩ ⟨by norm_num, by norm_num⟩ (by norm_num)

lemma thT2_lt_thT3 : thT2 < thT3 :=
  thetaAt_mono ⟨by norm_num, by norm_num⟩ ⟨by norm_num, by norm_num⟩ (by norm_num)

lemma fromPa_out {pres : ℝ} (h : pres > p0 ∨ pres < pT3) :
    fromPa pres = .error (.paRange p0 pT3) := by
  rw [fromPa, if_pos h]

lemma fromTheta_out {thetaIn : ℝ} (h : thetaIn < theta0 ∨ thetaIn > thT3) :
    fromTheta thetaIn = .error (.thetaRange theta0 thT3) := by
  rw [fromTheta, if_pos h]

/-- At the exact lower pressure bound `p[3]`, the range check passes but the bracket
scan falls through all four layers: `h0, h1` are never assigned. -/
lemma fromPa_at_pT3 : fromPa pT3 = .error .unboundLocal := by
  have hbr : paBracket pT3 = none := by
    rw [paBracket, if_neg, if_neg, if_neg, if_neg]
    · exact not_lt.mpr le_rfl
    · exact not_lt.mpr pT3_lt_pT2.le
    · exact not_lt.mpr (pT3_lt_pT2.trans pT2_lt_pT1).le
    · exact not_lt.mpr ((pT3_lt_pT2.trans pT2_lt_pT1).trans pT1_lt_pT0).le
  rw [fromPa, if_neg, hbr]
  push_neg
  refine ⟨le_trans (((pT3_lt_pT2.trans pT2_lt_pT1).trans pT1_lt_pT0).trans pT0_lt_p0).le
    le_rfl, le_rfl⟩

/-- At the exact upper bound `theta[3]`, the range check passes but the bracket scan
falls through: `h0, h1` are never assigned. -/
lemma fromTheta_at_thT3 : fromTheta thT3 = .error .unboundLocal := by
  have hbr : thetaBracket thT3 = none := by
    rw [thetaBracket, if_neg, if_neg, if_neg, if_neg]
    · exact not_lt.mpr le_rfl
    · exact not_lt.mpr thT2_lt_thT3.le
    · exact not_lt.mpr (thT1_lt_thT2.trans thT2_lt_thT3).le
    · exact not_lt.mpr ((thT0_lt_thT1.trans thT1_lt_thT2).trans thT2_lt_thT3).le
  rw [fromTheta, if_neg, hbr]
  push_neg
  refine ⟨le_trans ((((theta0_lt_thT0.trans thT0_lt_thT1).trans thT1_lt_thT2).trans
    thT2_lt_thT3)).le le_rfl, le_rfl⟩

/-! ### Target-altitude membership in the iterated brackets -/

lemma thetaNext_mem {thetaIn lo hi a : ℝ} {b : ℝ × ℝ} (hlo : 0 ≤ lo) (hhi : hi ≤ 47000)
    (ha0 : 0 ≤ a) (ha1 : a ≤ 47000) (hae : thetaAt a = thetaIn)
    (hb : ThInv thetaIn lo hi b) (hmem : b.1 ≤ a ∧ a ≤ b.2) :
    (thetaNext thetaIn b).1 ≤ a ∧ a ≤ (thetaNext thetaIn b).2 := by
  obtain ⟨h1, h2, h3, _, _⟩ := hb
  have hm0 : (0 : ℝ) ≤ (b.1 + b.2) / 2 := by nlinarith
  have hm1 : (b.1 + b.2) / 2 ≤ 47000 := by nlinarith
  rw [thetaNext, thetaStep]
  split_ifs with hc
  · refine ⟨hmem.1, ?_⟩
    by_contra hlt
    push_neg at hlt
    have : thetaAt ((b.1 + b.2) / 2) < thetaAt a :=
      thetaAt_mono ⟨hm0, hm1⟩ ⟨ha0, ha1⟩ hlt
    rw [hae] at this
    exact absurd hc (not_lt.mpr this.le)
  · refine ⟨?_, hmem.2⟩
    by_contra hlt
    push_neg at hlt
    have : thetaAt a < thetaAt ((b.1 + b.2) / 2) :=
      thetaAt_mono ⟨ha0, ha1⟩ ⟨hm0, hm1⟩ hlt
    rw [hae] at this
    exact hc this

lemma thetaIter_mem {thetaIn lo hi a : ℝ} {b : ℝ × ℝ} (hlo : 0 ≤ lo) (hhi : hi ≤ 47000)
    (ha0 : 0 ≤ a) (ha1 : a ≤ 47000) (hae : thetaAt a = thetaIn)
    (hb : ThInv thetaIn lo hi b) (hmem : b.1 ≤ a ∧ a ≤ b.2) (n : ℕ) :
    (thetaIter thetaIn n b).1 ≤ a ∧ a ≤ (thetaIter thetaIn n b).2 := by
  induction n with
  | zero => exact hmem
  | succ n ih =>
    rw [thetaIter, Function.iterate_succ_apply', ← thetaIter]
    exact thetaNext_mem hlo hhi ha0 ha1 hae (thetaIter_inv hb n) ih

/-! ### Step lemmas for unfolding a concrete `fromTheta` run -/

lemma thetaLoop_step_lt (thetaIn : ℝ) (n : ℕ) (h0 h1 mid : ℝ)
    (hg : 0.05 < |thetaAt mid - thetaIn|) (hbr : thetaIn < thetaAt mid)
    (hm0 : 0 ≤ (h0 + mid) / 2) (hm1 : (h0 + mid) / 2 ≤ 47000) :
    thetaLoop thetaIn (n + 1) h0 h1 mid (mkRes mid) =
      thetaLoop thetaIn n h0 mid ((h0 + mid) / 2) (mkRes ((h0 + mid) / 2)) := by
  have hg' : 0.05 < |(mkRes mid).2.2.1 - thetaIn| := hg
  have hbr' : thetaIn < (mkRes mid).2.2.1 := hbr
  rw [thetaLoop_succ, if_pos hg']
  have hstep : thetaStep thetaIn (mkRes mid).2.2.1 h0 h1 mid = (h0, mid) := by
    rw [thetaStep, if_pos hbr']
  rw [hstep]
  show (fromMeters ((h0 + mid) / 2)).bind
      (fun r' => thetaLoop thetaIn n h0 mid ((h0 + mid) / 2) r') = _
  rw [fromMeters_in hm0 hm1]
  rfl

lemma thetaLoop_step_gt (thetaIn : ℝ) (n : ℕ) (h0 h1 mid : ℝ)
    (hg : 0.05 < |thetaAt mid - thetaIn|) (hbr : thetaAt mid < thetaIn)
    (hm0 : 0 ≤ (mid + h1) / 2) (hm1 : (mid + h1) / 2 ≤ 47000) :
    thetaLoop thetaIn (n + 1) h0 h1 mid (mkRes mid) =
      thetaLoop thetaIn n mid h1 ((mid + h1) / 2) (mkRes ((mid + h1) / 2)) := by
  have hg' : 0.05 < |(mkRes mid).2.2.1 - thetaIn| := hg
  have hbr' : ¬ thetaIn < (mkRes mid).2.2.1 := not_lt.mpr hbr.le
  rw [thetaLoop_succ, if_pos hg']
  have hstep : thetaStep thetaIn (mkRes mid).2.2.1 h0 h1 mid = (mid, h1) := by
    rw [thetaStep, if_neg hbr']
  rw [hstep]
  show (fromMeters ((mid + h1) / 2)).bind
      (fun r' => thetaLoop thetaIn n mid h1 ((mid + h1) / 2) r') = _
  rw [fromMeters_in hm0 hm1]
  rfl

lemma thetaLoop_exit (thetaIn : ℝ) (n : ℕ) (h0 h1 mid : ℝ)
    (hg : |thetaAt mid - thetaIn| ≤ 0.05) :
    thetaLoop thetaIn (n + 1) h0 h1 mid (mkRes mid) =
      .ok ((presAt mid, mid, tempAt mid, densAt mid), n + 1) := by
  have hg' : ¬ 0.05 < |(mkRes mid).2.2.1 - thetaIn| := not_lt.mpr hg
  rw [thetaLoop_succ, if_neg hg']
  rfl

/-- Guard facts for a trajectory midpoint above the target altitude `5000` m. -/
lemma theta_guard_hi {mid : ℝ} (h5 : 5000 < mid) (hhi : mid ≤ 47000)
    (hgap : 0.05 < 0.0032385 * (mid - 5000)) :
    0.05 < |thetaAt mid - thetaAt 5000| ∧ thetaAt 5000 < thetaAt mid := by
  have hmono : thetaAt 5000 < thetaAt mid :=
    thetaAt_mono ⟨by norm_num, by norm_num⟩ ⟨by linarith, hhi⟩ h5
  have hg := thetaGapL 5000 ⟨by norm_num, by norm_num⟩ mid ⟨by linarith, hhi⟩ h5.le
  refine ⟨?_, hmono⟩
  rw [abs_of_pos (by linarith)]
  linarith

/-- Guard facts for a trajectory midpoint below the target altitude `5000` m. -/
lemma theta_guard_lo {mid : ℝ} (h0 : 0 ≤ mid) (h5 : mid < 5000)
    (hgap : 0.05 < 0.0032385 * (5000 - mid)) :
    0.05 < |thetaAt mid - thetaAt 5000| ∧ thetaAt mid < thetaAt 5000 := by
  have hmono : thetaAt mid < thetaAt 5000 :=
    thetaAt_mono ⟨h0, by linarith⟩ ⟨by norm_num, by norm_num⟩ h5
  have hg := thetaGapL mid ⟨h0, by linarith⟩ 5000 ⟨by norm_num, by norm_num⟩ h5.le
  refine ⟨?_, hmono⟩
  rw [abs_of_neg (by linarith), neg_sub]
  linarith

/-- Complete run of `fromTheta` at the potential temperature of `5000` m: the
bisection stops at midpoint `5005.859375` m. -/
lemma fromTheta_at_theta5000 :
    fromTheta (thetaAt 5000) = .ok (presAt 5005.859375, 5005.859375,
      tempAt 5005.859375, densAt 5005.859375) := by
  have g1 := theta_guard_hi (show (5000 : ℝ) < 5500 by norm_num) (by norm_num) (by norm_num)
  have g2 := theta_guard_lo (show (0 : ℝ) ≤ 2750 by norm_num) (by norm_num) (by norm_num)
  have g3 := theta_guard_lo (show (0 : ℝ) ≤ 4125 by norm_num) (by norm_num) (by norm_num)
  have g4 := theta_guard_lo (show (0 : ℝ) ≤ 4812.5 by norm_num) (by norm_num) (by norm_num)
  have g5 := theta_guard_hi (show (5000 : ℝ) < 5156.25 by norm_num) (by norm_num) (by norm_num)
  have g6 := theta_guard_lo (show (0 : ℝ) ≤ 4984.375 by norm_num) (by norm_num) (by norm_num)
  have g7 := theta_guard_hi (show (5000 : ℝ) < 5070.3125 by norm_num) (by norm_num)
    (by norm_num)
  have g8 := theta_guard_hi (show (5000 : ℝ) < 5027.34375 by norm_num) (by norm_num)
    (by norm_num)
  have s1 : thetaLoop (thetaAt 5000) 50 0 11000 5500 (mkRes 5500) =
      thetaLoop (thetaAt 5000) 49 0 5500 2750 (mkRes 2750) := by
    have h := thetaLoop_step_lt (thetaAt 5000) 49 0 11000 5500 g1.1 g1.2
      (by norm_num) (by norm_num)
    rw [show ((0 : ℝ) + 5500) / 2 = 2750 by norm_num] at h
    exact h
  have s2 : thetaLoop (thetaAt 5000) 49 0 5500 2750 (mkRes 2750) =
      thetaLoop (thetaAt 5000) 48 2750 5500 4125 (mkRes 4125) := by
    have h := thetaLoop_step_gt (thetaAt 5000) 48 0 5500 2750 g2.1 g2.2
      (by norm_num) (by norm_num)
    rw [show ((2750 : ℝ) + 5500) / 2 = 4125 by norm_num] at h
    exact h
  have s3 : thetaLoop (thetaAt 5000) 48 2750 5500 4125 (mkRes 4125) =
      thetaLoop (thetaAt 5000) 47 4125 5500 4812.5 (mkRes 4812.5) := by
    have h := thetaLoop_step_gt (thetaAt 5000) 47 2750 5500 4125 g3.1 g3.2
      (by norm_num) (by norm_num)
    rw [show ((4125 : ℝ) + 5500) / 2 = 4812.5 by norm_num] at h
    exact h
  have s4 : thetaLoop (thetaAt 5000) 47 4125 5500 4812.5 (mkRes 4812.5) =
      thetaLoop (thetaAt 5000) 46 4812.5 5500 5156.25 (mkRes 5156.25) := by
    have h := thetaLoop_step_gt (thetaAt 5000) 46 4125 5500 4812.5 g4.1 g4.2
      (by norm_num) (by norm_num)
    rw [show ((4812.5 : ℝ) + 5500) / 2 = 5156.25 by norm_num] at h
    exact h
  have s5 : thetaLoop (thetaAt 5000) 46 4812.5 5500 5156.25 (mkRes 5156.25) =
      thetaLoop (thetaAt 5000) 45 4812.5 5156.25 4984.375 (mkRes 4984.375) := by
    have h := thetaLoop_step_lt (thetaAt 5000) 45 4812.5 5500 5156.25 g5.1 g5.2
      (by norm_num) (by norm_num)
    rw [show ((4812.5 : ℝ) + 5156.25) / 2 = 4984.375 by norm_num] at h
    exact h
  have s6 : thetaLoop (thetaAt 5000) 45 4812.5 5156.25 4984.375 (mkRes 4984.375) =
      thetaLoop (thetaAt 5000) 44 4984.375 5156.25 5070.3125 (mkRes 5070.3125) := by
    have h := thetaLoop_step_gt (thetaAt 5000) 44 4812.5 5156.25 4984.375 g6.1 g6.2
      (by norm_num) (by norm_num)
    rw [show ((4984.375 : ℝ) + 5156.25) / 2 = 5070.3125 by norm_num] at h
    exact h
  have s7 : thetaLoop (thetaAt 5000) 44 4984.375 5156.25 5070.3125 (mkRes 5070.3125) =
      thetaLoop (thetaAt 5000) 43 4984.375 5070.3125 5027.34375 (mkRes 5027.34375) := by
    have h := thetaLoop_step_lt (thetaAt 5000) 43 4984.375 5156.25 5070.3125 g7.1 g7.2
      (by norm_num) (by norm_num)
    rw [show ((4984.375 : ℝ) + 5070.3125) / 2 = 5027.34375 by norm_num] at h
    exact h
  have s8 : thetaLoop (thetaAt 5000) 43 4984.375 5070.3125 5027.34375 (mkRes 5027.34375) =
      thetaLoop (thetaAt 5000) 42 4984.375 5027.34375 5005.859375 (mkRes 5005.859375) := by
    have h := thetaLoop_step_lt (thetaAt 5000) 42 4984.375 5070.3125 5027.34375 g8.1 g8.2
      (by norm_num) (by norm_num)
    rw [show ((4984.375 : ℝ) + 5027.34375) / 2 = 5005.859375 by norm_num] at h
    exact h
  have hstop : |thetaAt 5005.859375 - thetaAt 5000| ≤ 0.05 := by
    have hup := thetaGapU_L0 5000 ⟨by norm_num, by norm_num⟩ 5005.859375
      ⟨by norm_num, by norm_num⟩ (by norm_num)
    have hmono : thetaAt 5000 ≤ thetaAt 5005.859375 :=
      (thetaAt_mono ⟨by norm_num, by norm_num⟩ ⟨by norm_num, by norm_num⟩ (by norm_num)).le
    rw [abs_of_nonneg (by linarith)]
    linarith
  have s9 : thetaLoop (thetaAt 5000) 42 4984.375 5027.34375 5005.859375
      (mkRes 5005.859375) = .ok ((presAt 5005.859375, 5005.859375,
        tempAt 5005.859375, densAt 5005.859375), 42) := by
    have h := thetaLoop_exit (thetaAt 5000) 41 4984.375 5027.34375 5005.859375 hstop
    exact h
  have hrange : ¬ (thetaAt 5000 < theta0 ∨ thetaAt 5000 > thT3) := by
    push_neg
    exact ⟨theta0_le_thetaAt (by norm_num) (by norm_num),
      thetaAt_le_thT3 (by norm_num) (by norm_num)⟩
  have hbr : thetaBracket (thetaAt 5000) = some (0, 11000) := by
    rw [thetaBracket, if_pos]
    exact thetaAt_mono ⟨by norm_num, by norm_num⟩ ⟨by norm_num, by norm_num⟩ (by norm_num)
  rw [fromTheta, if_neg hrange, hbr]
  show (fromMeters ((0 + 11000) / 2)).bind
      (fun r => (thetaLoop (thetaAt 5000) 50 0 11000 ((0 + 11000) / 2) r).map Prod.fst) = _
  rw [show ((0 : ℝ) + 11000) / 2 = 5500 by norm_num,
    fromMeters_in (show (0 : ℝ) ≤ 5500 by norm_num) (by norm_num)]
  show (thetaLoop (thetaAt 5000) 50 0 11000 5500 (mkRes 5500)).map Prod.fst = _
  rw [s1, s2, s3, s4, s5, s6, s7, s8, s9]
  rfl

lemma pT3_lt_p0 : pT3 < p0 :=
  ((pT3_lt_pT2.trans pT2_lt_pT1).trans pT1_lt_pT0).trans pT0_lt_p0

lemma theta0_lt_thT3 : theta0 < thT3 :=
  ((theta0_lt_thT0.trans thT0_lt_thT1).trans thT1_lt_thT2).trans thT2_lt_thT3

/-! ### Claim theorems -/

/-- C1: for all `0 ≤ a1 < a2 ≤ 47000`, `fromMeters(a1)` returns a strictly larger
pressure and a strictly smaller potential temperature than `fromMeters(a2)`;
consequently the tabulated values are strictly ordered:
`p0 > p[0] > p[1] > p[2] > p[3]` and `theta0 < theta[0] < theta[1] < theta[2] < theta[3]`. -/
theorem C1_monotonicity :
    (∀ a1 a2 : ℝ, 0 ≤ a1 → a1 < a2 → a2 ≤ 47000 →
      ∃ r1 r2 : Result, fromMeters a1 = .ok r1 ∧ fromMeters a2 = .ok r2 ∧
        r2.1 < r1.1 ∧ r1.2.2.1 < r2.2.2.1) ∧
    pT3 < pT2 ∧ pT2 < pT1 ∧ pT1 < pT0 ∧ pT0 < p0 ∧
    theta0 < thT0 ∧ thT0 < thT1 ∧ thT1 < thT2 ∧ thT2 < thT3 := by
  refine ⟨?_, pT3_lt_pT2, pT2_lt_pT1, pT1_lt_pT0, pT0_lt_p0,
    theta0_lt_thT0, thT0_lt_thT1, thT1_lt_thT2, thT2_lt_thT3⟩
  intro a1 a2 h0 h12 h2
  refine ⟨mkRes a1, mkRes a2, fromMeters_in h0 (by linarith), fromMeters_in (by linarith) h2,
    ?_, ?_⟩
  · exact presAt_anti ⟨h0, by linarith⟩ ⟨by linarith, h2⟩ h12
  · exact thetaAt_mono ⟨h0, by linarith⟩ ⟨by linarith, h2⟩ h12

/-- Witness for C1 at the concrete altitudes `0` and `47000`. -/
theorem C1_monotonicity_witness :
    ∃ r1 r2 : Result, fromMeters 0 = .ok r1 ∧ fromMeters 47000 = .ok r2 ∧
      r2.1 < r1.1 ∧ r1.2.2.1 < r2.2.2.1 :=
  C1_monotonicity.1 0 47000 (by norm_num) (by norm_num) (by norm_num)

/-- C3: at the exact boundary inputs `p[-1]` (into `fromPa`) and `theta[-1]` (into
`fromTheta`) — both admitted by the range checks and inside the documented
inclusive ranges — the bracket scans find no layer (`pres > p[i]` respectively
`thetaIn < theta[i]` fails for every `i`), so `h0, h1` are never assigned and the
call dies with `UnboundLocalError` instead of returning a result tuple. -/
theorem C3_boundary_crash :
    fromPa pT3 = .error .unboundLocal ∧ fromTheta thT3 = .error .unboundLocal :=
  ⟨fromPa_at_pT3, fromTheta_at_thT3⟩

/-- C5: each guarded bisection step narrows the bracket in the direction dictated
by monotonicity, and the two inverses use mirrored comparisons: in `fromPa` a
midpoint pressure `p` above the target keeps the upper half `[mid, h1]` and one
below keeps `[h0, mid]`; in `fromTheta` a midpoint potential temperature `th`
below the target keeps `[mid, h1]` and one above keeps `[h0, mid]`.  (Ties are
impossible during the loop because of the `> 0.05` guard.) -/
theorem C5_step_directions (tgt p th h0 h1 mid : ℝ) :
    (tgt < p → paStep tgt p h0 h1 mid = (mid, h1)) ∧
    (p < tgt → paStep tgt p h0 h1 mid = (h0, mid)) ∧
    (th < tgt → thetaStep tgt th h0 h1 mid = (mid, h1)) ∧
    (tgt < th → thetaStep tgt th h0 h1 mid = (h0, mid)) := by
  refine ⟨fun h => ?_, fun h => ?_, fun h => ?_, fun h => ?_⟩
  · rw [paStep, if_neg (not_lt.mpr h.le)]
  · rw [paStep, if_pos h]
  · rw [thetaStep, if_neg (not_lt.mpr h.le)]
  · rw [thetaStep, if_pos h]

/-- Witness for C5 on concrete numbers, one instance per direction. -/
theorem C5_step_directions_witness :
    paStep 1 2 10 20 15 = (15, 20) ∧ paStep 3 2 10 20 15 = (10, 15) ∧
    thetaStep 1 0 10 20 15 = (15, 20) ∧ thetaStep 1 5 10 20 15 = (10, 15) :=
  ⟨(C5_step_directions 1 2 0 10 20 15).1 (by norm_num),
    (C5_step_directions 3 2 0 10 20 15).2.1 (by norm_num),
    (C5_step_directions 1 2 0 10 20 15).2.2.1 (by norm_num),
    (C5_step_directions 1 2 5 10 20 15).2.2.2 (by norm_num)⟩

/-- C6: every altitude outside `[0, 47000]` m is rejected with the range error, in
particular `-1` and `47001`; and `fromPa` rejects `102000` Pa (above ground
pressure) and `100` Pa (below the top-of-model pressure `p[3] ≈ 110.9` Pa). -/
theorem C6_range_rejection :
    (∀ alt : ℝ, alt < 0 ∨ alt > 47000 → fromMeters alt = .error .altRange) ∧
    fromMeters (-1) = .error .altRange ∧ fromMeters 47001 = .error .altRange ∧
    fromPa 102000 = .error (.paRange p0 pT3) ∧
    fromPa 100 = .error (.paRange p0 pT3) :=
  ⟨fun _ h => fromMeters_out h, fromMeters_out (Or.inl (by norm_num)),
    fromMeters_out (Or.inr (by norm_num)), fromPa_out (Or.inl (by norm_num [p0])),
    fromPa_out (Or.inr pT3_gt_100)⟩

/-- Witness for C6 instantiating the universally quantified part at `-2`. -/
theorem C6_range_rejection_witness : fromMeters (-2) = .error .altRange :=
  C6_range_rejection.1 (-2) (Or.inl (by norm_num))

/-- C7: on the isothermal second layer `[11000, 20000]` m, the temperature
component returned by `fromMeters` is exactly the one returned at `11000` m
(`216.65` K); in particular the temperatures at `11000`, `15000` and `20000` m
are exactly equal. -/
theorem C7_isothermal_layer :
    (∀ a : ℝ, 11000 ≤ a → a ≤ 20000 → ∃ r r0 : Result,
      fromMeters a = .ok r ∧ fromMeters 11000 = .ok r0 ∧
        r.2.1 = r0.2.1 ∧ r.2.1 = 216.65) ∧
    tempAt 11000 = tempAt 15000 ∧ tempAt 15000 = tempAt 20000 := by
  refine ⟨?_, ?_, ?_⟩
  · intro a h1 h2
    refine ⟨mkRes a, mkRes 11000, fromMeters_in (by linarith) (by linarith),
      fromMeters_in (by norm_num) (by norm_num), ?_, ?_⟩
    · show tempAt a = tempAt 11000
      rw [tempAt_eq_L1 h1 h2, tempAt_eq_L1 le_rfl (by norm_num)]
    · show tempAt a = 216.65
      exact tempAt_eq_L1 h1 h2
  · rw [tempAt_eq_L1 le_rfl (by norm_num), tempAt_eq_L1 (by norm_num) (by norm_num)]
  · rw [tempAt_eq_L1 (by norm_num) (by norm_num), tempAt_eq_L1 (by norm_num) le_rfl]

/-- Witness for C7 at the concrete altitude `15000` m. -/
theorem C7_isothermal_layer_witness :
    ∃ r r0 : Result, fromMeters 15000 = .ok r ∧ fromMeters 11000 = .ok r0 ∧
      r.2.1 = r0.2.1 ∧ r.2.1 = 216.65 :=
  C7_isothermal_layer.1 15000 (by norm_num) (by norm_num)

/-- C8: `fromMeters(0)` returns pressure exactly `101325` Pa and temperature
exactly `288.15` K, and its potential-temperature component is exactly the value
of the formula `theta = T * (1e5/P)^(R/Cp)` at `T = 288.15`, `P = 101325`,
`R = 287.00`, `Cp = 1005.7`. -/
theorem C8_ground_values :
    fromMeters 0 = .ok (101325, 288.15, t2theta 288.15 101325, density 288.15 101325) ∧
    t2theta 288.15 101325 =
      288.15 * ((1.0e5 : ℝ) / 101325) ^ ((287 : ℝ) / 1005.7) := by
  constructor
  · rw [fromMeters_in le_rfl (by norm_num), mkRes, thetaAt, densAt, presAt_zero,
      tempAt_zero, t0, p0]
  · rw [t2theta]
    norm_num [R, Cp]

/-- C9 counterexample: two different offending inputs produce the *identical*
error value, so the raised error does not carry the offending input value. -/
theorem C9_error_payload_counterexample :
    fromMeters (-1) = .error .altRange ∧ fromMeters (-2) = .error .altRange ∧
    (-1 : ℝ) ≠ (-2 : ℝ) :=
  ⟨fromMeters_out (Or.inl (by norm_num)), fromMeters_out (Or.inl (by norm_num)),
    by norm_num⟩

/-- C9 amended: whenever `fromMeters`, `fromPa` or `fromTheta` raises its range
error, the error identifies the violated domain and (for `fromPa`/`fromTheta`)
carries the two valid bounds, but never the offending input: the error value is
the same constant for every out-of-range input of the same operation
(`fromMeters`'s message names the bounds `[0, 47000]` only in fixed text). -/
theorem C9_error_payload_amended :
    (∀ alt : ℝ, alt < 0 ∨ alt > 47000 → fromMeters alt = .error .altRange) ∧
    (∀ pres : ℝ, pres > p0 ∨ pres < pT3 → fromPa pres = .error (.paRange p0 pT3)) ∧
    (∀ th : ℝ, th < theta0 ∨ th > thT3 → fromTheta th = .error (.thetaRange theta0 thT3)) :=
  ⟨fun _ h => fromMeters_out h, fun _ h => fromPa_out h, fun _ h => fromTheta_out h⟩

/-- Witness for the amended C9 at concrete out-of-range inputs. -/
theorem C9_error_payload_amended_witness :
    fromMeters (-3) = .error .altRange ∧ fromPa 200000 = .error (.paRange p0 pT3) ∧
    fromTheta 0 = .error (.thetaRange theta0 thT3) :=
  ⟨C9_error_payload_amended.1 (-3) (Or.inl (by norm_num)),
    C9_error_payload_amended.2.1 200000 (Or.inl (by norm_num [p0])),
    C9_error_payload_amended.2.2 0 (Or.inl (lt_of_lt_of_le (by norm_num) theta0_ge))⟩

/-- C2 counterexample: at `a = 5000` m the potential-temperature round trip
returns altitude `5005.859375` m — `5.859375` m away from `a`, beyond the claimed
1 m (the `0.05` K stopping tolerance corresponds to ≈ 15 m of altitude in the
lowest layer); and at `a = 47000` m the pressure round trip does not return an
altitude at all but dies with the unbound-local error of the bracket scan. -/
theorem C2_roundtrip_counterexample :
    fromMeters 5000 = .ok (presAt 5000, tempAt 5000, thetaAt 5000, densAt 5000) ∧
    fromTheta (thetaAt 5000) = .ok (presAt 5005.859375, 5005.859375,
      tempAt 5005.859375, densAt 5005.859375) ∧
    ¬ |(5005.859375 : ℝ) - 5000| ≤ 1 ∧
    fromMeters 47000 = .ok (presAt 47000, tempAt 47000, thetaAt 47000, densAt 47000) ∧
    fromPa (presAt 47000) = .error .unboundLocal :=
  ⟨fromMeters_in (by norm_num) (by norm_num), fromTheta_at_theta5000,
    by rw [abs_of_nonneg (by norm_num : (0 : ℝ) ≤ 5005.859375 - 5000)]; norm_num,
    fromMeters_in (by norm_num) (by norm_num), fromPa_at_pT3⟩

/-- C2 amended: for every altitude `0 ≤ a < 47000` m, feeding the pressure
computed by `fromMeters(a)` into `fromPa` returns an altitude within 16 m of `a`,
and feeding the computed potential temperature into `fromTheta` returns an
altitude within 16 m of `a`.  (At `a = 47000` both inverses crash; the `0.05`
unit stopping tolerances correspond to up to ≈ 4.3 m for pressure and ≈ 15.5 m
for potential temperature, so 1 m does not hold.) -/
theorem C2_roundtrip_amended (a : ℝ) (h0 : 0 ≤ a) (h1 : a < 47000) :
    ∃ rPa rTh : Result, fromPa (presAt a) = .ok rPa ∧ |rPa.1 - a| ≤ 16 ∧
      fromTheta (thetaAt a) = .ok rTh ∧ |rTh.2.1 - a| ≤ 16 := by
  have hp1 : pT3 < presAt a := presAt_anti ⟨h0, h1.le⟩ ⟨by norm_num, le_rfl⟩ h1
  have hp2 : presAt a ≤ p0 := presAt_le_p0 h0 h1.le
  obtain ⟨lo, hi, k, _, _, hlo, hhi, hinv, _, _, _, hres, hfp⟩ := fromPa_spec hp1 hp2
  have hm := paInv_mid_range hlo hhi (paIter_inv hinv k)
  have habs := abs_le.mp hres
  have hPa16 : |midP (paIter (presAt a) k (lo, hi)) - a| ≤ 16 := by
    rcases le_total a (midP (paIter (presAt a) k (lo, hi))) with hle | hle
    · have hgap := presGapU a ⟨h0, h1.le⟩ (midP (paIter (presAt a) k (lo, hi)))
        ⟨hm.1, hm.2⟩ hle
      rw [abs_of_nonneg (by linarith)]
      linarith [habs.1]
    · have hgap := presGapU (midP (paIter (presAt a) k (lo, hi))) ⟨hm.1, hm.2⟩ a
        ⟨h0, h1.le⟩ hle
      rw [abs_of_nonpos (by linarith)]
      linarith [habs.2]
  have ht1 : theta0 ≤ thetaAt a := theta0_le_thetaAt h0 h1.le
  have ht2 : thetaAt a < thT3 := thetaAt_mono ⟨h0, h1.le⟩ ⟨by norm_num, le_rfl⟩ h1
  obtain ⟨lo2, hi2, k2, _, _, hlo2, hhi2, hinv2, hw2, _, _, hstop2, hft⟩ :=
    fromTheta_spec ht1 ht2
  have hinvk2 := thetaIter_inv hinv2 k2
  have hm2 := thInv_mid_range hlo2 hhi2 hinvk2
  have hTh16 : |midP (thetaIter (thetaAt a) k2 (lo2, hi2)) - a| ≤ 16 := by
    rcases hstop2 with hres2 | hk50
    · have habs2 := abs_le.mp hres2
      rcases le_total a (midP (thetaIter (thetaAt a) k2 (lo2, hi2))) with hle | hle
      · have hgap := thetaGapL a ⟨h0, h1.le⟩ (midP (thetaIter (thetaAt a) k2 (lo2, hi2)))
          ⟨hm2.1, hm2.2⟩ hle
        rw [abs_of_nonneg (by linarith)]
        linarith [habs2.2]
      · have hgap := thetaGapL (midP (thetaIter (thetaAt a) k2 (lo2, hi2)))
          ⟨hm2.1, hm2.2⟩ a ⟨h0, h1.le⟩ hle
        rw [abs_of_nonpos (by linarith)]
        linarith [habs2.1]
    · have g4 : thetaAt lo2 ≤ thetaAt a := hinv2.2.2.2.1
      have g5 : thetaAt a ≤ thetaAt hi2 := hinv2.2.2.2.2
      have hlohi : lo2 < hi2 := hinv2.2.1
      have hinit : ((lo2, hi2) : ℝ × ℝ).1 ≤ a ∧ a ≤ ((lo2, hi2) : ℝ × ℝ).2 := by
        constructor
        · by_contra hlt
          push_neg at hlt
          have : thetaAt a < thetaAt lo2 :=
            thetaAt_mono ⟨h0, h1.le⟩ ⟨hlo2, by linarith⟩ hlt
          linarith
        · by_contra hlt
          push_neg at hlt
          have : thetaAt hi2 < thetaAt a :=
            thetaAt_mono ⟨by linarith, hhi2⟩ ⟨h0, h1.le⟩ hlt
          linarith
      have hmem := thetaIter_mem hlo2 hhi2 h0 h1.le rfl hinv2 hinit k2
      have hwidth := thetaIter_width (thetaAt a) (lo2, hi2) k2
      subst hk50
      have h250 : (2 : ℝ) ^ (50 : ℕ) = 1125899906842624 := by norm_num
      rw [h250] at hwidth
      have hb12 := hinvk2.2.1
      have hmid1 : (thetaIter (thetaAt a) 50 (lo2, hi2)).1 ≤
          midP (thetaIter (thetaAt a) 50 (lo2, hi2)) := by
        rw [midP]; linarith
      have hmid2 : midP (thetaIter (thetaAt a) 50 (lo2, hi2)) ≤
          (thetaIter (thetaAt a) 50 (lo2, hi2)).2 := by
        rw [midP]; linarith
      rw [abs_le]
      constructor <;> nlinarith [hmem.1, hmem.2, hw2, hlo2, hhi2]
  exact ⟨_, _, hfp, hPa16, hft, hTh16⟩

/-- Witness for the amended C2 at the concrete altitude `a = 0`. -/
theorem C2_roundtrip_amended_witness :
    ∃ rPa rTh : Result, fromPa (presAt 0) = .ok rPa ∧ |rPa.1 - 0| ≤ 16 ∧
      fromTheta (thetaAt 0) = .ok rTh ∧ |rTh.2.1 - 0| ≤ 16 :=
  C2_roundtrip_amended 0 le_rfl (by norm_num)

/-- C4: for every pressure accepted by `fromPa` (strictly above `p[3]`, at most
`p0`), the bisection loop stops at the *first* midpoint whose residual is within
`0.05` Pa — every earlier iterate has residual above the tolerance — and this
happens within 23 of the 50 allowed iterations, so at least 27 units of the
iteration budget are left over and the returned state has residual ≤ `0.05` Pa. -/
theorem C4_bisection_convergence (pres : ℝ) (h1 : pT3 < pres) (h2 : pres ≤ p0) :
    ∃ (lo hi : ℝ) (k rem : ℕ), paBracket pres = some (lo, hi) ∧ k ≤ 23 ∧
      rem = 50 - k ∧ 27 ≤ rem ∧
      paLoop pres 50 lo hi ((lo + hi) / 2) (mkRes ((lo + hi) / 2)) =
        .ok ((midP (paIter pres k (lo, hi)), tempAt (midP (paIter pres k (lo, hi))),
          thetaAt (midP (paIter pres k (lo, hi))),
          densAt (midP (paIter pres k (lo, hi)))), rem) ∧
      (∀ j < k, 0.05 < |presAt (midP (paIter pres j (lo, hi))) - pres|) ∧
      |presAt (midP (paIter pres k (lo, hi))) - pres| ≤ 0.05 ∧
      fromPa pres = .ok (midP (paIter pres k (lo, hi)),
        tempAt (midP (paIter pres k (lo, hi))), thetaAt (midP (paIter pres k (lo, hi))),
        densAt (midP (paIter pres k (lo, hi)))) := by
  obtain ⟨lo, hi, k, hbr, hk23, hlo, hhi, hinv, hw, heq, hmin, hres, hfp⟩ :=
    fromPa_spec h1 h2
  exact ⟨lo, hi, k, 50 - k, hbr, hk23, rfl, by omega, heq, hmin, hres, hfp⟩

/-- Witness for C4 at the concrete pressure `p0`. -/
theorem C4_bisection_convergence_witness :
    ∃ (lo hi : ℝ) (k rem : ℕ), paBracket p0 = some (lo, hi) ∧ k ≤ 23 ∧
      rem = 50 - k ∧ 27 ≤ rem ∧
      paLoop p0 50 lo hi ((lo + hi) / 2) (mkRes ((lo + hi) / 2)) =
        .ok ((midP (paIter p0 k (lo, hi)), tempAt (midP (paIter p0 k (lo, hi))),
          thetaAt (midP (paIter p0 k (lo, hi))),
          densAt (midP (paIter p0 k (lo, hi)))), rem) ∧
      (∀ j < k, 0.05 < |presAt (midP (paIter p0 j (lo, hi))) - p0|) ∧
      |presAt (midP (paIter p0 k (lo, hi))) - p0| ≤ 0.05 ∧
      fromPa p0 = .ok (midP (paIter p0 k (lo, hi)),
        tempAt (midP (paIter p0 k (lo, hi))), thetaAt (midP (paIter p0 k (lo, hi))),
        densAt (midP (paIter p0 k (lo, hi)))) :=
  C4_bisection_convergence p0 pT3_lt_p0 le_rfl

/-- C10: on every input where the inverses return, the returned tuple is the
forward model evaluated at the reported altitude: `fromPa` returns exactly the
temperature, potential temperature and density that `fromMeters` computes at the
returned altitude, and `fromTheta` returns exactly the pressure, temperature and
density that `fromMeters` computes there. -/
theorem C10_internal_consistency :
    (∀ pres : ℝ, pT3 < pres → pres ≤ p0 →
      ∃ mid t th d p' : ℝ, fromPa pres = .ok (mid, t, th, d) ∧
        fromMeters mid = .ok (p', t, th, d)) ∧
    (∀ thetaIn : ℝ, theta0 ≤ thetaIn → thetaIn < thT3 →
      ∃ p mid t d th' : ℝ, fromTheta thetaIn = .ok (p, mid, t, d) ∧
        fromMeters mid = .ok (p, t, th', d)) := by
  constructor
  · intro pres h1 h2
    obtain ⟨lo, hi, k, _, _, hlo, hhi, hinv, _, _, _, _, hfp⟩ := fromPa_spec h1 h2
    have hm := paInv_mid_range hlo hhi (paIter_inv hinv k)
    exact ⟨midP (paIter pres k (lo, hi)), tempAt (midP (paIter pres k (lo, hi))),
      thetaAt (midP (paIter pres k (lo, hi))), densAt (midP (paIter pres k (lo, hi))),
      presAt (midP (paIter pres k (lo, hi))), hfp, fromMeters_in hm.1 hm.2⟩
  · intro thetaIn h1 h2
    obtain ⟨lo, hi, k, _, _, hlo, hhi, hinv, _, _, _, _, hft⟩ := fromTheta_spec h1 h2
    have hm := thInv_mid_range hlo hhi (thetaIter_inv hinv k)
    exact ⟨presAt (midP (thetaIter thetaIn k (lo, hi))),
      midP (thetaIter thetaIn k (lo, hi)), tempAt (midP (thetaIter thetaIn k (lo, hi))),
      densAt (midP (thetaIter thetaIn k (lo, hi))),
      thetaAt (midP (thetaIter thetaIn k (lo, hi))), hft, fromMeters_in hm.1 hm.2⟩

/-- Witness for C10 at the concrete inputs `p0` and `theta0`. -/
theorem C10_internal_consistency_witness :
    (∃ mid t th d p' : ℝ, fromPa p0 = .ok (mid, t, th, d) ∧
      fromMeters mid = .ok (p', t, th, d)) ∧
    (∃ p mid t d th' : ℝ, fromTheta theta0 = .ok (p, mid, t, d) ∧
      fromMeters mid = .ok (p, t, th', d)) :=
  ⟨C10_internal_consistency.1 p0 pT3_lt_p0 le_rfl,
    C10_internal_consistency.2 theta0 le_rfl theta0_lt_thT3⟩

end

end StandardAtmos
